import Mathlib

/-!
# sensord: `prog/sensord/sense.c`

A shallow embedding of the poll-and-report module of `sensord` (lm_sensors).

* The sensor-access layer (libsensors) is a collaborator.  Its behaviour is a
  parameter (`Collab`): every call takes the current state of the outside
  world and returns its answer together with the next state of the world, so
  that two reads of one register may differ.
* Every function returns, besides its C result, the list of `Event`s it gave
  rise to, in order: each line handed to `sensorLog`, each label retrieval
  and release, each register read, each call of a `format` or `rrd` policy,
  each call of `sensors_do_chip_sets`, each call of
  `sensors_get_detected_chips`, and the code returned by each chip-level
  call.
* A `double` is the rational number it holds: the values that the collaborator
  stores are finite (a NaN or an infinity is not modelled).  The sum
  `tmp + 0.5` is the IEEE 754 binary64 sum, the exact sum rounded to the
  nearest `double`, ties to even (`roundDouble`): expressions of type `double`
  are evaluated in `double`, as on x86-64.  `(int) x` truncates toward zero
  when the result is in the range of a 32-bit `int`; outside that range the
  conversion is undefined in C, and what it gives is a parameter
  (`Collab.int_out_of_range`).
* `rrdBuff` is a string of unbounded capacity (its declaration is not part of
  this file of the source).
-/

namespace Sensord

/-! ## Constants -/

abbrev DO_READ : Int := 0
abbrev DO_SCAN : Int := 1
abbrev DO_SET : Int := 2
abbrev DO_RRD : Int := 3

/-- Severity `LOG_ALERT` of `<syslog.h>`. -/
abbrev LOG_ALERT : Int := 1
/-- Severity `LOG_ERR` of `<syslog.h>`. -/
abbrev LOG_ERR : Int := 3
/-- Severity `LOG_INFO` of `<syslog.h>`. -/
abbrev LOG_INFO : Int := 6
/-- Severity `LOG_DEBUG` of `<syslog.h>`. -/
abbrev LOG_DEBUG : Int := 7

/-! ## Data model -/

/-- A `const sensors_chip_name *`: the address the pointer holds (`addr`),
and the fields of the pointee that the code reads, `chip->prefix` (`pfx`)
and `chip->bus` (`bus`). -/
structure sensors_chip_name where
  addr : Nat
  pfx : String
  bus : Int
deriving DecidableEq, Repr

/-- A `const sensors_feature *`: the field `name` of the pointee, and the
feature's number. -/
structure sensors_feature where
  name : String
  number : Int
deriving DecidableEq, Repr

/-- One entry of a `FeatureDescriptor` array (`sensord.h`).  `format = none`
is the NULL formatter that terminates the array, `rrd = none` is a NULL
series policy.  `dataNumbers` is the array of register numbers, terminated by
a negative entry.  The policies receive the values read from the data
registers, in order. -/
structure FeatureDescriptor where
  format : Option (List ℚ → Int → Int → Option String)
  rrd : Option (List ℚ → Option String)
  alarmNumber : Int
  beepNumber : Int
  feature : sensors_feature
  dataNumbers : List Int

/-- One entry of the `knownChips` table: `name` is the address held by the
pointer `name`; `features = none` is the NULL that terminates the table. -/
structure ChipDescriptor where
  name : Nat
  features : Option (List FeatureDescriptor)

/-- Which call site of `sensors_get_value` made a read. -/
inductive Reg where
  | alarm
  | beep
  | data
deriving DecidableEq, Repr

/-- The observable actions. -/
inductive Event where
  /-- A call `sensorLog(severity, ...)`, with the text of the line. -/
  | log (severity : Int) (text : String)
  /-- A call `sensors_get_label(chip, feature)` and its result (`none` is NULL);
  a result `some l` is a string the caller owns. -/
  | getLabel (chip : Nat) (feature : String) (result : Option String)
  /-- A call `free(label)`. -/
  | free (label : String)
  /-- A call `sensors_get_value(chip, number, &x)`, its return code and the
  value stored. -/
  | getValue (site : Reg) (chip : Nat) (number : Int) (code : Int) (value : ℚ)
  /-- A call `feature->format(values, alarm, beep)` and its result. -/
  | format (values : List ℚ) (alarm beep : Int) (result : Option String)
  /-- A call `feature->rrd(values)` and its result. -/
  | rrd (values : List ℚ) (result : Option String)
  /-- A call `sensors_do_chip_sets(chip)` and its return code. -/
  | chipSets (chip : Nat) (code : Int)
  /-- A call `sensors_get_detected_chips(&chipNames[j], &i)`: the pattern, the
  cursor `i` on entry, and the address returned (`none` is NULL). -/
  | enumerate (pattern : String) (cursor : Nat) (result : Option Nat)
  /-- The statement `ret = doChip(chip, action)` of `doChips`: the chip and
  the code returned. -/
  | chipReturn (chip : Nat) (code : Int)
deriving DecidableEq, Repr

/-- The sensor-access collaborator, over a world of type `W`, and the one
parameter of the platform (`int_out_of_range`). -/
structure Collab (W : Type) where
  /-- `sensors_snprintf_chip_name(buffer, 256, chip)`: the return value and
  the content of the buffer. -/
  sensors_snprintf_chip_name : W → sensors_chip_name → (Int × String) × W
  /-- `sensors_get_adapter_name(&chip->bus)`; `none` is NULL. -/
  sensors_get_adapter_name : W → Int → Option String × W
  /-- `sensors_get_label(chip, feature)`; `none` is NULL. -/
  sensors_get_label : W → sensors_chip_name → sensors_feature → Option String × W
  /-- `sensors_get_value(chip, number, &x)`: the return code (0 on success) and
  the value stored in `x`. -/
  sensors_get_value : W → sensors_chip_name → Int → (Int × ℚ) × W
  /-- `sensors_do_chip_sets(chip)`: the return code (0 on success). -/
  sensors_do_chip_sets : W → sensors_chip_name → Int × W
  /-- `sensors_strerror(code)`. -/
  sensors_strerror : Int → String
  /-- The chips that successive calls of
  `sensors_get_detected_chips(&pattern, &i)`, started with `i = 0`, return
  before they return NULL. -/
  detected : String → List sensors_chip_name
  /-- Not a function of libsensors: what the conversion `(int) x` gives on this
  platform for a `double` whose integral part is not in the range of `int`.
  The C standard leaves that conversion undefined. -/
  int_out_of_range : ℚ → Int

/-- The state the code runs in: the outside world and the global `rrdBuff`. -/
structure State (W : Type) where
  world : W
  rrdBuff : String
deriving DecidableEq

variable {W : Type}

/-- What `%s` prints for a `const char *`; a NULL pointer, which `chipName`
can return, is printed as `(null)`, as the GNU C library does. -/
def showStr : Option String → String
  | some t => t
  | none => "(null)"

/-- What `%d` prints. -/
def showInt (n : Int) : String := toString n

/-- The power `2 ^ p` for an integer `p`. -/
def pow2 (p : Int) : ℚ :=
  if 0 ≤ p then ((2 ^ p.toNat : ℕ) : ℚ) else 1 / ((2 ^ (-p).toNat : ℕ) : ℚ)

/-- The number of binary digits of `n`: 0 for 0, else `floor (log2 n) + 1`.
The first argument bounds the number of steps; `bitLength n n` is the
length. -/
def bitLength : Nat → Nat → Nat
  | 0, _ => 0
  | fuel + 1, n => if n = 0 then 0 else bitLength fuel (n / 2) + 1

/-- For `q ≠ 0`, `floor (log2 |q|)`: the integer `e` with
`2 ^ e ≤ |q| < 2 ^ (e + 1)`.  The difference of the lengths of numerator and
denominator is `e` or `e + 1`. -/
def log2Floor (q : ℚ) : Int :=
  let e : Int := (bitLength q.num.natAbs q.num.natAbs : Int) - (bitLength q.den q.den : Int)
  if pow2 e ≤ |q| then e else e - 1

/-- The integer nearest to `r`; of two nearest integers, the even one. -/
def roundHalfEven (r : ℚ) : Int :=
  if r - ⌊r⌋ < 1 / 2 then ⌊r⌋
  else if 1 / 2 < r - ⌊r⌋ then ⌊r⌋ + 1
  else if ⌊r⌋ % 2 = 0 then ⌊r⌋ else ⌊r⌋ + 1

/-- The `double` (IEEE 754 binary64) nearest to the real number `q`, ties to
even, which is the rounding of every `double` operation in the default
rounding mode.  The doubles near `q` are the multiples of `2 ^ p`, where
`p = e - 52` for `2 ^ e ≤ |q| < 2 ^ (e + 1)` (53 significant bits), and
`p = -1074` in the subnormal range `e < -1022`; `q / 2 ^ p` is rounded to an
integer.  Overflow to infinity (`|q| ≥ 2 ^ 1024 - 2 ^ 970`) is not modelled:
the sum of a finite `double` and 0.5 is below that bound. -/
def roundDouble (q : ℚ) : ℚ :=
  if q = 0 then 0
  else (roundHalfEven (q / pow2 (max (log2Floor q - 52) (-1074))) : ℚ)
    * pow2 (max (log2Floor q - 52) (-1074))

/-- The conversion `(int) x` of a `double` `x`, `int` being 32 bits wide:
the integral part of `x` (truncation toward zero) when it is in the range
of `int`, that is when `-2147483649 < x < 2147483648`; else the conversion
is undefined in C and `outOfRange x` stands for what it gives (any integer:
the properties hold whatever it is). -/
def toInt (outOfRange : ℚ → Int) (x : ℚ) : Int :=
  if -2147483649 < x ∧ x < 2147483648 then Int.tdiv x.num x.den else outOfRange x

/-! ## The code

Each function returns its C result, the events of the call and the state
after the call. -/

/-- `chipName`, lines 38-44: the name and the world after the call. -/
def chipName (env : Collab W) (chip : sensors_chip_name) (w : W) : Option String × W :=
  let r := env.sensors_snprintf_chip_name w chip
  if r.1.1 < 0 then (none, r.2) else (some r.1.2, r.2)

/-- `idChip`, lines 46-56. -/
def idChip (env : Collab W) (chip : sensors_chip_name) (s : State W) :
    Int × List Event × State W :=
  let n := chipName env chip s.world
  let a := env.sensors_get_adapter_name n.2 chip.bus
  let s1 : State W := { s with world := a.2 }
  match a.1 with
  | some adapter =>
    (0, [Event.log LOG_INFO ("Chip: " ++ showStr n.1),
         Event.log LOG_INFO ("Adapter: " ++ adapter)], s1)
  | none => (0, [Event.log LOG_INFO ("Chip: " ++ showStr n.1)], s1)

/-- The text of the line "Error getting sensor data: %s/#%d: %s". -/
def dataErrorText (env : Collab W) (chip : sensors_chip_name) (number code : Int) :
    String :=
  "Error getting sensor data: " ++ chip.pfx ++ "/#" ++ showInt number ++ ": "
    ++ env.sensors_strerror code

/-- The flag read at lines 81-95 (alarm) and 99-113 (beep): `flag = 0`, then,
if `!ret` and the register number is not -1, one read; a failing read is
logged and gives the code `err`, a successful one gives
`flag = (int) (tmp + 0.5)`, the sum being that of two `double`s.  Returns
`((ret, flag), events, state)`. -/
def readFlag (env : Collab W) (chip : sensors_chip_name) (site : Reg)
    (number err ret : Int) (s : State W) : (Int × Int) × List Event × State W :=
  if ret = 0 ∧ number ≠ -1 then
    let r := env.sensors_get_value s.world chip number
    let s1 : State W := { s with world := r.2 }
    if r.1.1 ≠ 0 then
      ((err, 0),
       [Event.getValue site chip.addr number r.1.1 r.1.2,
        Event.log LOG_ERR (dataErrorText env chip number r.1.1)], s1)
    else
      ((0, toInt env.int_out_of_range (roundDouble (r.1.2 + 1 / 2))),
       [Event.getValue site chip.addr number r.1.1 r.1.2], s1)
  else
    ((ret, 0), [], s)

/-- The loop of lines 115-121 over `feature->dataNumbers` from `subindex` on
(the list is the rest of the array).  Returns `((ret, values), events, state)`. -/
def readData (env : Collab W) (chip : sensors_chip_name) :
    List Int → Int → List ℚ → State W → (Int × List ℚ) × List Event × State W
  | [], ret, values, s => ((ret, values), [], s)
  | number :: rest, ret, values, s =>
    if ret = 0 ∧ number ≥ 0 then
      let r := env.sensors_get_value s.world chip number
      let s1 : State W := { s with world := r.2 }
      let e := Event.getValue Reg.data chip.addr number r.1.1 r.1.2
      if r.1.1 ≠ 0 then
        let t := readData env chip rest 23 values s1
        (t.1, [e, Event.log LOG_ERR (dataErrorText env chip number r.1.1)] ++ t.2.1, t.2.2)
      else
        let t := readData env chip rest 0 (values ++ [r.1.2]) s1
        (t.1, e :: t.2.1, t.2.2)
    else
      ((ret, values), [], s)

/-- Lines 122-139: what is done with the values once `ret` is known. -/
def report (env : Collab W) (chip : sensors_chip_name) (action : Int)
    (feature : FeatureDescriptor)
    (format : List ℚ → Int → Int → Option String) (label : String)
    (values : List ℚ) (alarm beep ret : Int) (s : State W) : List Event × State W :=
  if ret = 0 then
    if action = DO_RRD then
      match feature.rrd with
      | some rrd =>
        let rrded := rrd values
        ([Event.rrd values rrded],
         { s with rrdBuff := (s.rrdBuff ++ ":") ++ (rrded.getD "U") })
      | none => ([], s)
    else
      let formatted := format values alarm beep
      match formatted with
      | some text =>
        if action = DO_READ then
          ([Event.format values alarm beep formatted,
            Event.log LOG_INFO ("  " ++ label ++ ": " ++ text)], s)
        else
          let n := chipName env chip s.world
          ([Event.format values alarm beep formatted,
            Event.log LOG_ALERT
              ("Sensor alarm: Chip " ++ showStr n.1 ++ ": " ++ label ++ ": " ++ text)],
           { s with world := n.2 })
      | none => ([Event.format values alarm beep formatted], s)
  else
    ([], s)

/-- The body of the loop of `doKnownChip`, lines 69-142, for one feature whose
`format` is not NULL.  The `continue` of line 97 leaves the body before
line 141. -/
def doFeature (env : Collab W) (chip : sensors_chip_name) (action : Int)
    (feature : FeatureDescriptor)
    (format : List ℚ → Int → Int → Option String) (ret : Int) (s : State W) :
    Int × List Event × State W :=
  let l := env.sensors_get_label s.world chip feature.feature
  let s1 : State W := { s with world := l.2 }
  let e := Event.getLabel chip.addr feature.feature.name l.1
  match l.1 with
  | none =>
    (22, [e, Event.log LOG_ERR
      ("Error getting sensor label: " ++ chip.pfx ++ "/" ++ feature.feature.name)], s1)
  | some label =>
    let a := readFlag env chip Reg.alarm feature.alarmNumber 20 ret s1
    if action = DO_SCAN ∧ a.1.2 = 0 then
      (a.1.1, e :: a.2.1, a.2.2)
    else
      let b := readFlag env chip Reg.beep feature.beepNumber 21 a.1.1 a.2.2
      let d := readData env chip feature.dataNumbers b.1.1 [] b.2.2
      let r := report env chip action feature format label d.1.2 a.1.2 b.1.2 d.1.1 d.2.2
      (d.1.1, e :: a.2.1 ++ b.2.1 ++ d.2.1 ++ r.1 ++ [Event.free label], r.2)

/-- The loop of `doKnownChip`, lines 68-143, from `features + index0` on. -/
def doFeatures (env : Collab W) (chip : sensors_chip_name) (action : Int) :
    List FeatureDescriptor → Int → State W → Int × List Event × State W
  | [], ret, s => (ret, [], s)
  | feature :: rest, ret, s =>
    if ret = 0 then
      match feature.format with
      | some format =>
        let r := doFeature env chip action feature format ret s
        let t := doFeatures env chip action rest r.1 r.2.2
        (t.1, r.2.1 ++ t.2.1, t.2.2)
      | none => (ret, [], s)
    else
      (ret, [], s)

/-- `doKnownChip`, lines 58-145.  The descriptor is an entry of the table
found by `doChip`, so its `features` is not NULL. -/
def doKnownChip (env : Collab W) (chip : sensors_chip_name)
    (descriptor : ChipDescriptor) (action : Int) (s : State W) :
    Int × List Event × State W :=
  let r := if action = DO_READ then idChip env chip s else (0, [], s)
  let t := doFeatures env chip action (descriptor.features.getD []) r.1 r.2.2
  (t.1, r.2.1 ++ t.2.1, t.2.2)

/-- `setChip`, lines 147-161. -/
def setChip (env : Collab W) (chip : sensors_chip_name) (s : State W) :
    Int × List Event × State W :=
  let r := idChip env chip s
  if r.1 ≠ 0 then
    (r.1, r.2.1 ++ [Event.log LOG_ERR ("Error identifying chip: " ++ chip.pfx)], r.2.2)
  else
    let c := env.sensors_do_chip_sets r.2.2.world chip
    let s1 : State W := { r.2.2 with world := c.2 }
    if c.1 ≠ 0 then
      (50, r.2.1 ++ [Event.chipSets chip.addr c.1,
        Event.log LOG_ERR
          ("Error performing chip sets: " ++ chip.pfx ++ ": " ++ env.sensors_strerror c.1)],
       s1)
    else
      (0, r.2.1 ++ [Event.chipSets chip.addr c.1, Event.log LOG_INFO "Set."], s1)

/-- The search of lines 169-180 from `knownChips + index0` on: the entry
`knownChips[chipindex]`, or `none` when `chipindex` stays -1. -/
def findChip (chip : sensors_chip_name) : List ChipDescriptor → Option ChipDescriptor
  | [] => none
  | d :: rest =>
    match d.features with
    | none => none
    | some _ => if d.name = chip.addr then some d else findChip chip rest

/-- `doChip`, lines 163-186. -/
def doChip (env : Collab W) (knownChips : List ChipDescriptor)
    (chip : sensors_chip_name) (action : Int) (s : State W) :
    Int × List Event × State W :=
  if action = DO_SET then
    setChip env chip s
  else
    match findChip chip knownChips with
    | some descriptor => doKnownChip env chip descriptor action s
    | none => (0, [], s)

/-- The `while` loop of lines 195-198 for one pattern: `chips` is what the
enumeration has still to return, `i` the cursor. -/
def doPattern (env : Collab W) (knownChips : List ChipDescriptor) (action : Int)
    (pattern : String) :
    List sensors_chip_name → Nat → Int → State W → Int × List Event × State W
  | [], i, ret, s =>
    if ret = 0 then (ret, [Event.enumerate pattern i none], s) else (ret, [], s)
  | chip :: rest, i, ret, s =>
    if ret = 0 then
      let r := doChip env knownChips chip action s
      let t := doPattern env knownChips action pattern rest (i + 1) r.1 r.2.2
      (t.1,
       Event.enumerate pattern i (some chip.addr) :: r.2.1
         ++ Event.chipReturn chip.addr r.1 :: t.2.1,
       t.2.2)
    else
      (ret, [], s)

/-- The `for` loop of lines 193-199 from `chipNames + j` on. -/
def doPatterns (env : Collab W) (knownChips : List ChipDescriptor) (action : Int) :
    List String → Int → State W → Int × List Event × State W
  | [], ret, s => (ret, [], s)
  | pattern :: rest, ret, s =>
    if ret = 0 then
      let r := doPattern env knownChips action pattern (env.detected pattern) 0 ret s
      let t := doPatterns env knownChips action rest r.1 r.2.2
      (t.1, r.2.1 ++ t.2.1, t.2.2)
    else
      (ret, [], s)

/-- `doChips`, lines 188-202; `chipNames` is `sensord_args.chipNames`, of
length `sensord_args.numChipNames`. -/
def doChips (env : Collab W) (knownChips : List ChipDescriptor)
    (chipNames : List String) (action : Int) (s : State W) :
    Int × List Event × State W :=
  doPatterns env knownChips action chipNames 0 s

/-- `readChips`, lines 204-213. -/
def readChips (env : Collab W) (knownChips : List ChipDescriptor)
    (chipNames : List String) (s : State W) : Int × List Event × State W :=
  let r := doChips env knownChips chipNames DO_READ s
  (r.1, Event.log LOG_DEBUG "sensor read started" :: r.2.1
     ++ [Event.log LOG_DEBUG "sensor read finished"], r.2.2)

/-- `scanChips`, lines 215-224. -/
def scanChips (env : Collab W) (knownChips : List ChipDescriptor)
    (chipNames : List String) (s : State W) : Int × List Event × State W :=
  let r := doChips env knownChips chipNames DO_SCAN s
  (r.1, Event.log LOG_DEBUG "sensor sweep started" :: r.2.1
     ++ [Event.log LOG_DEBUG "sensor sweep finished"], r.2.2)

/-- `setChips`, lines 226-235. -/
def setChips (env : Collab W) (knownChips : List ChipDescriptor)
    (chipNames : List String) (s : State W) : Int × List Event × State W :=
  let r := doChips env knownChips chipNames DO_SET s
  (r.1, Event.log LOG_DEBUG "sensor set started" :: r.2.1
     ++ [Event.log LOG_DEBUG "sensor set finished"], r.2.2)

/-- `rrdChips`, lines 239-250. -/
def rrdChips (env : Collab W) (knownChips : List ChipDescriptor)
    (chipNames : List String) (s : State W) : Int × List Event × State W :=
  let r := doChips env knownChips chipNames DO_RRD { s with rrdBuff := "N" }
  (r.1, Event.log LOG_DEBUG "sensor rrd started" :: r.2.1
     ++ [Event.log LOG_DEBUG "sensor rrd finished"], r.2.2)

/-! ## Shapes of event lists -/

/-- A register read that succeeded. -/
def Event.okRead : Event → Bool
  | .getValue _ _ _ code _ => code == 0
  | _ => false

/-- A retrieval that failed: a label retrieval that returned NULL, or a
register read that returned a non-zero code. -/
def Event.failed : Event → Bool
  | .getLabel _ _ none => true
  | .getValue _ _ _ code _ => code != 0
  | _ => false

/-- A label retrieval or a register read. -/
def Event.isRetrieval : Event → Bool
  | .getLabel _ _ _ => true
  | .getValue _ _ _ _ _ => true
  | _ => false

/-- A line logged at severity `LOG_ERR`. -/
def Event.isErrorLine : Event → Bool
  | .log severity _ => severity == LOG_ERR
  | _ => false

/-- A call of `sensors_do_chip_sets`. -/
def Event.isChipSets : Event → Bool
  | .chipSets _ _ => true
  | _ => false

/-- A call of `sensors_get_detected_chips`, or the return of a chip-level
call: the events of `doChips` itself. -/
def Event.isCycle : Event → Bool
  | .enumerate _ _ _ => true
  | .chipReturn _ _ => true
  | _ => false

/-- The entries of a `dataNumbers` array before its terminator. -/
def dataRegisters (numbers : List Int) : List Int :=
  numbers.takeWhile (fun n => decide (0 ≤ n))

/-- The events of successful reads of the data registers `numbers`, giving
the values `values`. -/
def dataReads (chip : sensors_chip_name) (numbers : List Int) (values : List ℚ) :
    List Event :=
  List.zipWith (fun n x => Event.getValue Reg.data chip.addr n 0 x) numbers values

/-- The code that `doKnownChip` returns for a failing read at each call site. -/
def Reg.code : Reg → Int
  | .alarm => 20
  | .beep => 21
  | .data => 23

/-- The events and the value of a flag read that did not fail: no read and
flag 0 when the register number is -1, else one successful read of a value
`x` and the flag `(int) (x + 0.5)`, the sum being that of two `double`s. -/
inductive FlagOk (env : Collab W) (chip : sensors_chip_name) (site : Reg) (number : Int) :
    List Event → Int → Prop where
  | absent : number = -1 → FlagOk env chip site number [] 0
  | read (x : ℚ) : number ≠ -1 →
      FlagOk env chip site number [Event.getValue site chip.addr number 0 x]
        (toInt env.int_out_of_range (roundDouble (x + 1 / 2)))

/-- The events of lines 122-139 for a feature whose retrievals all succeeded. -/
inductive Output (env : Collab W) (chip : sensors_chip_name) (action : Int)
    (feature : FeatureDescriptor) (format : List ℚ → Int → Int → Option String)
    (label : String) (values : List ℚ) (alarm beep : Int) : List Event → Prop where
  | noSeries : action = DO_RRD → feature.rrd = none →
      Output env chip action feature format label values alarm beep []
  | series (rrd : List ℚ → Option String) : action = DO_RRD → feature.rrd = some rrd →
      Output env chip action feature format label values alarm beep
        [Event.rrd values (rrd values)]
  | silent : action ≠ DO_RRD → format values alarm beep = none →
      Output env chip action feature format label values alarm beep
        [Event.format values alarm beep none]
  | info (text : String) : action = DO_READ → format values alarm beep = some text →
      Output env chip action feature format label values alarm beep
        [Event.format values alarm beep (some text),
         Event.log LOG_INFO ("  " ++ label ++ ": " ++ text)]
  | alert (text : String) (w : W) : action ≠ DO_RRD → action ≠ DO_READ →
      format values alarm beep = some text →
      Output env chip action feature format label values alarm beep
        [Event.format values alarm beep (some text),
         Event.log LOG_ALERT
           ("Sensor alarm: Chip " ++ showStr (chipName env chip w).1 ++ ": " ++ label
             ++ ": " ++ text)]

/-- The events of one iteration of the loop of `doKnownChip`, and the value
of `ret` at its end, on each of its exit paths.  After a failed read the
label is released, except on the path of the `continue` in ScanForAlarms
mode. -/
inductive Iteration (env : Collab W) (chip : sensors_chip_name) (action : Int)
    (feature : FeatureDescriptor) (format : List ℚ → Int → Int → Option String) :
    List Event → Int → Prop where
  | labelError :
      Iteration env chip action feature format
        [Event.getLabel chip.addr feature.feature.name none,
         Event.log LOG_ERR
           ("Error getting sensor label: " ++ chip.pfx ++ "/" ++ feature.feature.name)] 22
  | readError (label : String) (reads : List Event) (site : Reg) (number code : Int)
      (x : ℚ) (released : List Event) :
      (∀ e ∈ reads, Event.okRead e = true) → code ≠ 0 →
      (released = [Event.free label] ∨ (action = DO_SCAN ∧ released = [])) →
      Iteration env chip action feature format
        (Event.getLabel chip.addr feature.feature.name (some label) :: reads
          ++ [Event.getValue site chip.addr number code x,
              Event.log LOG_ERR (dataErrorText env chip number code)]
          ++ released) site.code
  | skipped (label : String) (reads : List Event) :
      action = DO_SCAN → FlagOk env chip Reg.alarm feature.alarmNumber reads 0 →
      Iteration env chip action feature format
        (Event.getLabel chip.addr feature.feature.name (some label) :: reads) 0
  | reported (label : String) (ra rb out : List Event) (alarm beep : Int)
      (values : List ℚ) :
      FlagOk env chip Reg.alarm feature.alarmNumber ra alarm →
      (action = DO_SCAN → alarm ≠ 0) →
      FlagOk env chip Reg.beep feature.beepNumber rb beep →
      values.length = (dataRegisters feature.dataNumbers).length →
      Output env chip action feature format label values alarm beep out →
      Iteration env chip action feature format
        (Event.getLabel chip.addr feature.feature.name (some label) :: ra ++ rb
          ++ dataReads chip (dataRegisters feature.dataNumbers) values ++ out
          ++ [Event.free label]) 0

/-- The events of a run of the loop of `doKnownChip` that ended on a failed
retrieval, and the code returned: events without a failed retrieval, then
either a failed label retrieval and its ERROR line (code 22), or the
successful label retrieval of the feature, successful register reads, the
failed read at `site`, its ERROR line and possibly the release of the label
(code 20, 21 or 23 for the alarm, beep or a data register). -/
inductive Aborted (chip : sensors_chip_name) : List Event → Int → Prop where
  | label (earlier : List Event) (name text : String) :
      (∀ e ∈ earlier, Event.failed e = false) →
      Aborted chip
        (earlier ++ [Event.getLabel chip.addr name none, Event.log LOG_ERR text]) 22
  | read (earlier : List Event) (name label : String) (reads : List Event) (site : Reg)
      (number code : Int) (x : ℚ) (text : String) (released : List Event) :
      (∀ e ∈ earlier, Event.failed e = false) →
      (∀ e ∈ reads, Event.okRead e = true) → code ≠ 0 →
      (released = [] ∨ released = [Event.free label]) →
      Aborted chip
        (earlier ++ (Event.getLabel chip.addr name (some label) :: reads
          ++ [Event.getValue site chip.addr number code x, Event.log LOG_ERR text]
          ++ released)) site.code

/-- The line of Read mode for a feature: none when `format` yields NULL, else
the INFO line "  label: formatted". -/
def infoLine (label : String) : Option String → List Event
  | some text => [Event.log LOG_INFO ("  " ++ label ++ ": " ++ text)]
  | none => []

/-- The line of ScanForAlarms mode for a feature: none when `format` yields
NULL, else the ALERT line "Sensor alarm: Chip name: label: formatted". -/
def alertLine (name label : String) : Option String → List Event
  | some text =>
    [Event.log LOG_ALERT ("Sensor alarm: Chip " ++ name ++ ": " ++ label ++ ": " ++ text)]
  | none => []

/-- The "Adapter:" line of `idChip`: none when `sensors_get_adapter_name`
returns NULL, else the INFO line "Adapter: name". -/
def adapterInfo : Option String → List Event
  | some adapter => [Event.log LOG_INFO ("Adapter: " ++ adapter)]
  | none => []

/-- The events for one feature in Read mode when no retrieval fails: the
label retrieval; the read of the alarm register, if there is one, which gives
the flag `alarm`; the read of the beep register, if there is one, which
gives the flag `beep`; the reads of the data registers in declared order,
which give `values`; the call of `format` on these values and flags; the INFO
line "  label: formatted" if `format` yields a string; the release of the
label. -/
inductive ReadReport (env : Collab W) (chip : sensors_chip_name)
    (feature : FeatureDescriptor) : List Event → Prop where
  | mk (format : List ℚ → Int → Int → Option String) (label : String)
      (ra rb : List Event) (alarm beep : Int) (values : List ℚ) :
      feature.format = some format →
      FlagOk env chip Reg.alarm feature.alarmNumber ra alarm →
      FlagOk env chip Reg.beep feature.beepNumber rb beep →
      values.length = (dataRegisters feature.dataNumbers).length →
      ReadReport env chip feature
        (Event.getLabel chip.addr feature.feature.name (some label) :: ra ++ rb
          ++ dataReads chip (dataRegisters feature.dataNumbers) values
          ++ Event.format values alarm beep (format values alarm beep)
            :: infoLine label (format values alarm beep)
          ++ [Event.free label])

/-- The events for one feature in ScanForAlarms mode when no retrieval fails.
`quiet`: the alarm flag is 0; the label retrieval and the read of the alarm
register, if there is one, are all.  `alarmed`: the alarm flag `alarm` is not
0; the label retrieval; the read of the alarm register; the read of the beep
register, if there is one, which gives the flag `beep`; the reads of the data
registers in declared order, which give `values`; the call of `format` on
these values and flags; the ALERT line
"Sensor alarm: Chip name: label: formatted" if `format` yields a string, in
which `name` is what `chipName` gives for the chip; the release of the
label. -/
inductive ScanReport (env : Collab W) (chip : sensors_chip_name)
    (feature : FeatureDescriptor) : List Event → Prop where
  | quiet (label : String) (reads : List Event) :
      FlagOk env chip Reg.alarm feature.alarmNumber reads 0 →
      ScanReport env chip feature
        (Event.getLabel chip.addr feature.feature.name (some label) :: reads)
  | alarmed (format : List ℚ → Int → Int → Option String) (label : String)
      (ra rb : List Event) (alarm beep : Int) (values : List ℚ) (name : String) :
      feature.format = some format →
      FlagOk env chip Reg.alarm feature.alarmNumber ra alarm → alarm ≠ 0 →
      FlagOk env chip Reg.beep feature.beepNumber rb beep →
      values.length = (dataRegisters feature.dataNumbers).length →
      (format values alarm beep ≠ none → ∃ w, name = showStr (chipName env chip w).1) →
      ScanReport env chip feature
        (Event.getLabel chip.addr feature.feature.name (some label) :: ra ++ rb
          ++ dataReads chip (dataRegisters feature.dataNumbers) values
          ++ Event.format values alarm beep (format values alarm beep)
            :: alertLine name label (format values alarm beep)
          ++ [Event.free label])

/-- The texts of the lines logged at severity `LOG_INFO`, in order. -/
def infoLines (events : List Event) : List String :=
  events.filterMap (fun e => match e with
    | .log severity text => if severity = LOG_INFO then some text else none
    | _ => none)

/-- The successful label retrievals: each gives the caller a string to
release. -/
def acquisitions (events : List Event) : List Event :=
  events.filter (fun e => match e with
    | .getLabel _ _ (some _) => true
    | _ => false)

/-- The calls of `free`. -/
def releases (events : List Event) : List Event :=
  events.filter (fun e => match e with
    | .free _ => true
    | _ => false)

/-- The enumeration calls and the returns of chip-level calls among the
events, in order. -/
def cycle (events : List Event) : List Event := events.filter Event.isCycle

/-- The enumeration calls and chip-level returns of a pass over one pattern in
which every chip-level call returns 0: each chip still to be returned is
enumerated (at cursors `i`, `i + 1`, ...) and processed, in order, and a last
call returns NULL. -/
def planFrom (pattern : String) : List sensors_chip_name → Nat → List Event
  | [], i => [Event.enumerate pattern i none]
  | chip :: rest, i =>
    Event.enumerate pattern i (some chip.addr) :: Event.chipReturn chip.addr 0
      :: planFrom pattern rest (i + 1)

/-- The enumeration calls and chip-level returns of a cycle in which every
chip-level call returns 0: the patterns in configured order, and for each
pattern its chips in enumeration order. -/
def plan (env : Collab W) (chipNames : List String) : List Event :=
  (chipNames.map (fun pattern => planFrom pattern (env.detected pattern) 0)).flatten

/-! ## Specification of the cycle -/

/-- Specification: the calls of `sensors_get_detected_chips` for one pattern
when nothing stops the cycle, from cursor `i` on: one call for each chip
still to be returned, in enumeration order, and a last call that returns
NULL.  Each call is given by the pattern, the cursor and the chip
returned. -/
def Spec.callsFrom (pattern : String) :
    List sensors_chip_name → Nat → List (String × Nat × Option sensors_chip_name)
  | [], i => [(pattern, i, none)]
  | chip :: rest, i => (pattern, i, some chip) :: Spec.callsFrom pattern rest (i + 1)

/-- Specification: the enumeration of a cycle that nothing stops: the
patterns in configured order and, for each pattern, its chips in enumeration
order. -/
def Spec.calls (env : Collab W) (chipNames : List String) :
    List (String × Nat × Option sensors_chip_name) :=
  (chipNames.map (fun pattern => Spec.callsFrom pattern (env.detected pattern) 0)).flatten

/-- Specification: a cycle over an enumeration, `step chip s` being the
chip-level processing of `chip` in the state `s`.  Each chip is processed as
soon as it is enumerated, in the state its predecessor left.  When the
chip-level processing of a chip returns a non-zero code, the cycle ends
there and returns that code: nothing further is enumerated or processed.
When the enumeration is exhausted, the cycle returns 0. -/
def Spec.run (step : sensors_chip_name → State W → Int × List Event × State W) :
    List (String × Nat × Option sensors_chip_name) → State W → Int × List Event × State W
  | [], s => (0, [], s)
  | (pattern, i, none) :: rest, s =>
    let t := Spec.run step rest s
    (t.1, Event.enumerate pattern i none :: t.2.1, t.2.2)
  | (pattern, i, some chip) :: rest, s =>
    let r := step chip s
    if r.1 ≠ 0 then
      (r.1, Event.enumerate pattern i (some chip.addr) :: r.2.1
        ++ [Event.chipReturn chip.addr r.1], r.2.2)
    else
      let t := Spec.run step rest r.2.2
      (t.1, Event.enumerate pattern i (some chip.addr) :: r.2.1
        ++ Event.chipReturn chip.addr 0 :: t.2.1, t.2.2)

/-! ## Specification of the export line -/

/-- Specification: the register read for a flag, none when the number is -1. -/
def Spec.flagRegister (number : Int) : List Int :=
  if number = -1 then [] else [number]

/-- Specification: read the registers in order; the values, or `none` at the
first read that fails. -/
def Spec.readAll (env : Collab W) (chip : sensors_chip_name) :
    List Int → W → Option (List ℚ) × W
  | [], w => (some [], w)
  | number :: rest, w =>
    let r := env.sensors_get_value w chip number
    if r.1.1 = 0 then
      let t := Spec.readAll env chip rest r.2
      (t.1.map (fun values => r.1.2 :: values), t.2)
    else
      (none, r.2)

/-- Specification: the retrievals for one feature, in order: the label, the
alarm register if there is one, the beep register if there is one, the data
registers in declared order.  The values of the data registers, or `none` at
the first retrieval that fails. -/
def Spec.retrieve (env : Collab W) (chip : sensors_chip_name) (feature : FeatureDescriptor)
    (w : W) : Option (List ℚ) × W :=
  let l := env.sensors_get_label w chip feature.feature
  match l.1 with
  | none => (none, l.2)
  | some _ =>
    let a := Spec.readAll env chip (Spec.flagRegister feature.alarmNumber) l.2
    match a.1 with
    | none => (none, a.2)
    | some _ =>
      let b := Spec.readAll env chip (Spec.flagRegister feature.beepNumber) a.2
      match b.1 with
      | none => (none, b.2)
      | some _ => Spec.readAll env chip (dataRegisters feature.dataNumbers) b.2

/-- Specification: the token of a feature: none without a series policy, else
the policy's result, or "U" when the policy yields no value. -/
def Spec.token (feature : FeatureDescriptor) (values : List ℚ) : List String :=
  match feature.rrd with
  | none => []
  | some rrd => [(rrd values).getD "U"]

/-- Specification: the tokens of the features of one chip, in declaration
order, up to the terminator of the array or the first feature with a failing
retrieval; the flag tells whether a retrieval failed. -/
def Spec.chipTokens (env : Collab W) (chip : sensors_chip_name) :
    List FeatureDescriptor → W → (List String × Bool) × W
  | [], w => (([], false), w)
  | feature :: rest, w =>
    match feature.format with
    | none => (([], false), w)
    | some _ =>
      let r := Spec.retrieve env chip feature w
      match r.1 with
      | none => (([], true), r.2)
      | some values =>
        let t := Spec.chipTokens env chip rest r.2
        ((Spec.token feature values ++ t.1.1, t.1.2), t.2)

/-- Specification: the tokens of a cycle over the chips in enumeration order:
a chip that is not in the table gives none, and the cycle ends with the first
chip on which a retrieval fails. -/
def Spec.cycleTokens (env : Collab W) (knownChips : List ChipDescriptor) :
    List sensors_chip_name → W → (List String × Bool) × W
  | [], w => (([], false), w)
  | chip :: rest, w =>
    match findChip chip knownChips with
    | none => Spec.cycleTokens env knownChips rest w
    | some descriptor =>
      let r := Spec.chipTokens env chip (descriptor.features.getD []) w
      if r.1.2 then r
      else
        let t := Spec.cycleTokens env knownChips rest r.2
        ((r.1.1 ++ t.1.1, t.1.2), t.2)

/-- Specification: a buffer followed by ":token" for each token. -/
def Spec.appendTokens (buffer : String) (tokens : List String) : String :=
  tokens.foldl (fun b t => (b ++ ":") ++ t) buffer

/-- Specification: the export line, the literal "N" followed by ":token" for
each token. -/
def Spec.exportLine (tokens : List String) : String := Spec.appendTokens "N" tokens

/-! ## A demonstration system -/

/-- A chip of the demonstration system. -/
def Demo.chip : sensors_chip_name := ⟨1, "lm78", 0⟩

/-- A second chip, absent from the table. -/
def Demo.other : sensors_chip_name := ⟨2, "w83781d", 1⟩

/-- A chip on which `sensors_do_chip_sets` fails. -/
def Demo.busy : sensors_chip_name := ⟨3, "busy", 0⟩

/-- The registers of the demonstration system: register 7 holds 1, register
8 holds 0, register 9 holds -1, register 10 holds `0.5 - 2 ^ (-54)`, the
`double` next below 0.5 (0.49999999999999994), the read of register 13 fails
with code -5, every other register holds 30. -/
def Demo.value (number : Int) : Int × ℚ :=
  if number = 7 then (0, 1)
  else if number = 8 then (0, 0)
  else if number = 9 then (0, -1)
  else if number = 10 then (0, 9007199254740991 / 18014398509481984)
  else if number = 13 then (-5, 0)
  else (0, 30)

/-- The demonstration collaborator; its world counts the calls made.  A
conversion out of the range of `int` gives `INT_MIN`, as on x86-64. -/
def Demo.env : Collab Nat where
  sensors_snprintf_chip_name := fun w c => ((0, c.pfx ++ "-isa-0290"), w + 1)
  sensors_get_adapter_name := fun w _ => (some "ISA adapter", w + 1)
  sensors_get_label := fun w _ f =>
    (if f.name = "broken" then none else some (f.name ++ " label"), w + 1)
  sensors_get_value := fun w _ n => (Demo.value n, w + 1)
  sensors_do_chip_sets := fun w c => (if c.pfx = "busy" then -4 else 0, w + 1)
  sensors_strerror := fun _ => "bus busy"
  detected := fun p =>
    if p = "lm78-*" then [Demo.chip] else if p = "*" then [Demo.chip, Demo.other] else []
  int_out_of_range := fun _ => -2147483648

/-- A formatter that yields "30 C". -/
def Demo.format1 : List ℚ → Int → Int → Option String := fun _ _ _ => some "30 C"

/-- A formatter that yields "31 C". -/
def Demo.format2 : List ℚ → Int → Int → Option String := fun _ _ _ => some "31 C"

/-- Feature `f1`: no alarm register, one data register. -/
def Demo.f1 : FeatureDescriptor :=
  { format := some Demo.format1, rrd := some (fun _ => some "30"), alarmNumber := -1,
    beepNumber := -1, feature := ⟨"f1", 1⟩, dataNumbers := [1, -1] }

/-- Feature `f2`: alarm register 7, whose value is 1. -/
def Demo.f2 : FeatureDescriptor :=
  { format := some Demo.format2, rrd := some (fun _ => none), alarmNumber := 7,
    beepNumber := -1, feature := ⟨"f2", 2⟩, dataNumbers := [2, -1] }

/-- Feature `f3`: alarm register 8, whose value is 0; no series policy. -/
def Demo.f3 : FeatureDescriptor :=
  { format := some Demo.format1, rrd := none, alarmNumber := 8,
    beepNumber := -1, feature := ⟨"f3", 3⟩, dataNumbers := [3, -1] }

/-- Feature `f4`: alarm register 9, whose value is -1. -/
def Demo.f4 : FeatureDescriptor :=
  { format := some Demo.format1, rrd := none, alarmNumber := 9,
    beepNumber := -1, feature := ⟨"f4", 4⟩, dataNumbers := [-1] }

/-- Feature `f5`: its second data register, 13, cannot be read. -/
def Demo.f5 : FeatureDescriptor :=
  { format := some Demo.format1, rrd := some (fun _ => some "5"), alarmNumber := -1,
    beepNumber := -1, feature := ⟨"f5", 5⟩, dataNumbers := [5, 13, 6, -1] }

/-- Feature `f6`: its alarm register, 13, cannot be read. -/
def Demo.f6 : FeatureDescriptor :=
  { format := some Demo.format1, rrd := none, alarmNumber := 13,
    beepNumber := -1, feature := ⟨"f6", 6⟩, dataNumbers := [6, -1] }

/-- Feature `f7`: alarm register 10, whose value is the `double` next below
0.5. -/
def Demo.f7 : FeatureDescriptor :=
  { format := some Demo.format2, rrd := none, alarmNumber := 10,
    beepNumber := -1, feature := ⟨"f7", 7⟩, dataNumbers := [2, -1] }

/-- The table of the demonstration system, with its terminator. -/
def Demo.knownChips : List ChipDescriptor :=
  [⟨1, some [Demo.f1, Demo.f2]⟩, ⟨0, none⟩]

/-- The events of the iteration for `f2` in ScanForAlarms mode. -/
def Demo.scanOfF2 : List Event :=
  [Event.getLabel 1 "f2" (some "f2 label"), Event.getValue Reg.alarm 1 7 0 1,
   Event.getValue Reg.data 1 2 0 30, Event.format [30] 1 0 (some "31 C"),
   Event.log LOG_ALERT "Sensor alarm: Chip lm78-isa-0290: f2 label: 31 C",
   Event.free "f2 label"]

/-- The initial state of the demonstration system. -/
def Demo.start : State Nat := ⟨0, "stale"⟩

/-! ## Lemmas on the code -/

theorem readFlag_nonzero (env : Collab W) (chip : sensors_chip_name) (site : Reg)
    (number err ret : Int) (s : State W) (h : ret ≠ 0) :
    readFlag env chip site number err ret s = ((ret, 0), [], s) := by
  simp [readFlag, h]

theorem readData_nonzero (env : Collab W) (chip : sensors_chip_name)
    (ns : List Int) (ret : Int) (values : List ℚ) (s : State W) (h : ret ≠ 0) :
    readData env chip ns ret values s = ((ret, values), [], s) := by
  cases ns <;> simp [readData, h]

theorem readData_cons_ok (env : Collab W) (chip : sensors_chip_name)
    (n : Int) (ns : List Int) (values : List ℚ) (s : State W) (hn : 0 ≤ n)
    (hc : (env.sensors_get_value s.world chip n).1.1 = 0) :
    readData env chip (n :: ns) 0 values s =
      ((readData env chip ns 0 (values ++ [(env.sensors_get_value s.world chip n).1.2])
          { s with world := (env.sensors_get_value s.world chip n).2 }).1,
       Event.getValue Reg.data chip.addr n 0 (env.sensors_get_value s.world chip n).1.2 ::
        (readData env chip ns 0 (values ++ [(env.sensors_get_value s.world chip n).1.2])
          { s with world := (env.sensors_get_value s.world chip n).2 }).2.1,
       (readData env chip ns 0 (values ++ [(env.sensors_get_value s.world chip n).1.2])
          { s with world := (env.sensors_get_value s.world chip n).2 }).2.2) := by
  simp [readData, hn, hc]

theorem readData_cons_fail (env : Collab W) (chip : sensors_chip_name)
    (n : Int) (ns : List Int) (values : List ℚ) (s : State W) (hn : 0 ≤ n)
    (hc : (env.sensors_get_value s.world chip n).1.1 ≠ 0) :
    readData env chip (n :: ns) 0 values s =
      ((23, values),
       [Event.getValue Reg.data chip.addr n (env.sensors_get_value s.world chip n).1.1
          (env.sensors_get_value s.world chip n).1.2,
        Event.log LOG_ERR
          (dataErrorText env chip n (env.sensors_get_value s.world chip n).1.1)],
       { s with world := (env.sensors_get_value s.world chip n).2 }) := by
  simp [readData, hn, hc, readData_nonzero]

theorem readData_cons_stop (env : Collab W) (chip : sensors_chip_name)
    (n : Int) (ns : List Int) (ret : Int) (values : List ℚ) (s : State W) (hn : ¬ 0 ≤ n) :
    readData env chip (n :: ns) ret values s = ((ret, values), [], s) := by
  simp [readData, hn]

theorem readData_rrdBuff (env : Collab W) (chip : sensors_chip_name)
    (ns : List Int) (ret : Int) (values : List ℚ) (s : State W) :
    (readData env chip ns ret values s).2.2.rrdBuff = s.rrdBuff := by
  induction ns generalizing ret values s with
  | nil => simp [readData]
  | cons n ns ih =>
    simp only [readData]
    split
    · split
      · simp [ih]
      · simp [ih]
    · rfl

theorem readData_ok (env : Collab W) (chip : sensors_chip_name)
    (ns : List Int) (values : List ℚ) (s : State W)
    (h : (readData env chip ns 0 values s).1.1 = 0) :
    ∃ xs, xs.length = (dataRegisters ns).length ∧
      (readData env chip ns 0 values s).2.1 = dataReads chip (dataRegisters ns) xs ∧
      (readData env chip ns 0 values s).1.2 = values ++ xs := by
  induction ns generalizing values s with
  | nil => exact ⟨[], by simp [readData, dataReads, dataRegisters]⟩
  | cons n ns ih =>
    by_cases hn : 0 ≤ n
    · by_cases hc : (env.sensors_get_value s.world chip n).1.1 = 0
      · rw [readData_cons_ok env chip n ns values s hn hc] at h ⊢
        obtain ⟨xs, hl, he, hv⟩ := ih _ _ h
        refine ⟨(env.sensors_get_value s.world chip n).1.2 :: xs, ?_, ?_, ?_⟩
        · simp [dataRegisters, List.takeWhile_cons, hn] at hl ⊢
          exact hl
        · simp [dataRegisters, List.takeWhile_cons, hn, dataReads] at he ⊢
          exact he
        · simp [hv]
      · rw [readData_cons_fail env chip n ns values s hn hc] at h
        simp at h
    · rw [readData_cons_stop env chip n ns 0 values s hn]
      exact ⟨[], by simp [dataReads, dataRegisters, List.takeWhile_cons, hn]⟩

theorem readData_fail (env : Collab W) (chip : sensors_chip_name)
    (ns : List Int) (values : List ℚ) (s : State W)
    (h : (readData env chip ns 0 values s).1.1 ≠ 0) :
    (readData env chip ns 0 values s).1.1 = 23 ∧
    ∃ reads n c x, c ≠ 0 ∧ (∀ e ∈ reads, Event.okRead e = true) ∧
      (readData env chip ns 0 values s).2.1
        = reads ++ [Event.getValue Reg.data chip.addr n c x,
                    Event.log LOG_ERR (dataErrorText env chip n c)] := by
  induction ns generalizing values s with
  | nil => simp [readData] at h
  | cons n ns ih =>
    by_cases hn : 0 ≤ n
    · by_cases hc : (env.sensors_get_value s.world chip n).1.1 = 0
      · rw [readData_cons_ok env chip n ns values s hn hc] at h ⊢
        obtain ⟨h23, reads, m, c, x, hc', hok, he⟩ := ih _ _ h
        refine ⟨h23, Event.getValue Reg.data chip.addr n 0
          (env.sensors_get_value s.world chip n).1.2 :: reads, m, c, x, hc', ?_, ?_⟩
        · intro e he'
          rcases List.mem_cons.1 he' with rfl | h'
          · rfl
          · exact hok e h'
        · show _ :: _ = _
          rw [he]; rfl
      · rw [readData_cons_fail env chip n ns values s hn hc]
        exact ⟨rfl, [], n, _, _, hc, by simp, rfl⟩
    · rw [readData_cons_stop env chip n ns 0 values s hn] at h
      simp at h

theorem FlagOk.okRead {env : Collab W} {chip : sensors_chip_name} {site : Reg}
    {number : Int} {d : List Event} {flag : Int} (h : FlagOk env chip site number d flag) :
    ∀ e ∈ d, Event.okRead e = true := by
  cases h with
  | absent _ => simp
  | read x _ => simp [Event.okRead]

theorem dataReads_okRead (chip : sensors_chip_name) (ns : List Int) (xs : List ℚ) :
    ∀ e ∈ dataReads chip ns xs, Event.okRead e = true := by
  induction ns generalizing xs with
  | nil => simp [dataReads]
  | cons n ns ih =>
    cases xs with
    | nil => simp [dataReads]
    | cons x xs =>
      intro e he
      simp only [dataReads, List.zipWith_cons_cons, List.mem_cons] at he
      rcases he with rfl | he
      · rfl
      · exact ih xs e he

theorem readFlag_absent (env : Collab W) (chip : sensors_chip_name) (site : Reg)
    (number err ret : Int) (s : State W) (hn : number = -1) :
    readFlag env chip site number err ret s = ((ret, 0), [], s) := by
  simp [readFlag, hn]

theorem readFlag_ok (env : Collab W) (chip : sensors_chip_name) (site : Reg)
    (number err : Int) (s : State W) (hn : number ≠ -1)
    (hc : (env.sensors_get_value s.world chip number).1.1 = 0) :
    readFlag env chip site number err 0 s =
      ((0, toInt env.int_out_of_range
          (roundDouble ((env.sensors_get_value s.world chip number).1.2 + 1 / 2))),
       [Event.getValue site chip.addr number 0 (env.sensors_get_value s.world chip number).1.2],
       { s with world := (env.sensors_get_value s.world chip number).2 }) := by
  simp [readFlag, hn, hc]

theorem readFlag_fail (env : Collab W) (chip : sensors_chip_name) (site : Reg)
    (number err : Int) (s : State W) (hn : number ≠ -1)
    (hc : (env.sensors_get_value s.world chip number).1.1 ≠ 0) :
    readFlag env chip site number err 0 s =
      ((err, 0),
       [Event.getValue site chip.addr number (env.sensors_get_value s.world chip number).1.1
          (env.sensors_get_value s.world chip number).1.2,
        Event.log LOG_ERR
          (dataErrorText env chip number (env.sensors_get_value s.world chip number).1.1)],
       { s with world := (env.sensors_get_value s.world chip number).2 }) := by
  simp [readFlag, hn, hc]

/-- A flag read entered with `ret = 0` either succeeds or fails with `err`. -/
theorem readFlag_cases (env : Collab W) (chip : sensors_chip_name) (site : Reg)
    (number err : Int) (s : State W) :
    ((readFlag env chip site number err 0 s).1.1 = 0 ∧
      FlagOk env chip site number (readFlag env chip site number err 0 s).2.1
        (readFlag env chip site number err 0 s).1.2) ∨
    ((readFlag env chip site number err 0 s).1 = (err, 0) ∧
      ∃ code x, code ≠ 0 ∧ (readFlag env chip site number err 0 s).2.1 =
        [Event.getValue site chip.addr number code x,
         Event.log LOG_ERR (dataErrorText env chip number code)]) := by
  by_cases hn : number = -1
  · rw [readFlag_absent env chip site number err 0 s hn]
    exact Or.inl ⟨rfl, FlagOk.absent hn⟩
  · by_cases hc : (env.sensors_get_value s.world chip number).1.1 = 0
    · rw [readFlag_ok env chip site number err s hn hc]
      exact Or.inl ⟨rfl, FlagOk.read _ hn⟩
    · rw [readFlag_fail env chip site number err s hn hc]
      exact Or.inr ⟨rfl, _, _, hc, rfl⟩

theorem readFlag_rrdBuff (env : Collab W) (chip : sensors_chip_name) (site : Reg)
    (number err ret : Int) (s : State W) :
    (readFlag env chip site number err ret s).2.2.rrdBuff = s.rrdBuff := by
  simp only [readFlag]
  split
  · split <;> rfl
  · rfl

theorem report_nonzero (env : Collab W) (chip : sensors_chip_name) (action : Int)
    (feature : FeatureDescriptor) (format : List ℚ → Int → Int → Option String)
    (label : String) (values : List ℚ) (alarm beep ret : Int) (s : State W)
    (h : ret ≠ 0) :
    report env chip action feature format label values alarm beep ret s = ([], s) := by
  simp [report, h]

theorem report_output (env : Collab W) (chip : sensors_chip_name) (action : Int)
    (feature : FeatureDescriptor) (format : List ℚ → Int → Int → Option String)
    (label : String) (values : List ℚ) (alarm beep : Int) (s : State W) :
    Output env chip action feature format label values alarm beep
      (report env chip action feature format label values alarm beep 0 s).1 := by
  by_cases hr : action = DO_RRD
  · cases hf : feature.rrd with
    | none => simpa [report, hr, hf] using Output.noSeries hr hf
    | some rrd => simpa [report, hr, hf] using Output.series rrd hr hf
  · cases hf : format values alarm beep with
    | none => simpa [report, hr, hf] using Output.silent hr hf
    | some text =>
      by_cases hd : action = DO_READ
      · simpa [report, hr, hf, hd] using Output.info text hd hf
      · simpa [report, hr, hf, hd] using Output.alert text s.world hr hd hf

theorem doFeature_label_none (env : Collab W) (chip : sensors_chip_name) (action : Int)
    (feature : FeatureDescriptor) (format : List ℚ → Int → Int → Option String)
    (ret : Int) (s : State W)
    (hl : (env.sensors_get_label s.world chip feature.feature).1 = none) :
    doFeature env chip action feature format ret s =
      (22, [Event.getLabel chip.addr feature.feature.name none,
            Event.log LOG_ERR
              ("Error getting sensor label: " ++ chip.pfx ++ "/" ++ feature.feature.name)],
       { s with world := (env.sensors_get_label s.world chip feature.feature).2 }) := by
  simp [doFeature, hl]

theorem doFeature_skip (env : Collab W) (chip : sensors_chip_name) (action : Int)
    (feature : FeatureDescriptor) (format : List ℚ → Int → Int → Option String)
    (ret : Int) (s : State W) (label : String)
    (hl : (env.sensors_get_label s.world chip feature.feature).1 = some label)
    (hs : action = DO_SCAN ∧
      (readFlag env chip Reg.alarm feature.alarmNumber 20 ret
        { s with world := (env.sensors_get_label s.world chip feature.feature).2 }).1.2 = 0) :
    doFeature env chip action feature format ret s =
      ((readFlag env chip Reg.alarm feature.alarmNumber 20 ret
          { s with world := (env.sensors_get_label s.world chip feature.feature).2 }).1.1,
       Event.getLabel chip.addr feature.feature.name (some label) ::
        (readFlag env chip Reg.alarm feature.alarmNumber 20 ret
          { s with world := (env.sensors_get_label s.world chip feature.feature).2 }).2.1,
       (readFlag env chip Reg.alarm feature.alarmNumber 20 ret
          { s with world := (env.sensors_get_label s.world chip feature.feature).2 }).2.2) := by
  simp only [doFeature, hl]
  rw [if_pos hs]

theorem doFeature_full (env : Collab W) (chip : sensors_chip_name) (action : Int)
    (feature : FeatureDescriptor) (format : List ℚ → Int → Int → Option String)
    (ret : Int) (s : State W) (label : String)
    (hl : (env.sensors_get_label s.world chip feature.feature).1 = some label)
    (hs : ¬ (action = DO_SCAN ∧
      (readFlag env chip Reg.alarm feature.alarmNumber 20 ret
        { s with world := (env.sensors_get_label s.world chip feature.feature).2 }).1.2 = 0)) :
    doFeature env chip action feature format ret s =
      (let a := readFlag env chip Reg.alarm feature.alarmNumber 20 ret
          { s with world := (env.sensors_get_label s.world chip feature.feature).2 }
       let b := readFlag env chip Reg.beep feature.beepNumber 21 a.1.1 a.2.2
       let d := readData env chip feature.dataNumbers b.1.1 [] b.2.2
       let r := report env chip action feature format label d.1.2 a.1.2 b.1.2 d.1.1 d.2.2
       (d.1.1, Event.getLabel chip.addr feature.feature.name (some label) :: a.2.1
          ++ b.2.1 ++ d.2.1 ++ r.1 ++ [Event.free label], r.2)) := by
  simp only [doFeature, hl]
  rw [if_neg hs]

/-- Every iteration of the loop of `doKnownChip` entered with `ret = 0` takes
one of the four exit paths of `Iteration`. -/
theorem doFeature_iteration (env : Collab W) (chip : sensors_chip_name) (action : Int)
    (feature : FeatureDescriptor) (format : List ℚ → Int → Int → Option String)
    (s : State W) :
    Iteration env chip action feature format
      (doFeature env chip action feature format 0 s).2.1
      (doFeature env chip action feature format 0 s).1 := by
  cases hl : (env.sensors_get_label s.world chip feature.feature).1 with
  | none =>
    rw [doFeature_label_none env chip action feature format 0 s hl]
    exact Iteration.labelError
  | some label =>
    by_cases hs : action = DO_SCAN ∧
      (readFlag env chip Reg.alarm feature.alarmNumber 20 0
        { s with world := (env.sensors_get_label s.world chip feature.feature).2 }).1.2 = 0
    · rw [doFeature_skip env chip action feature format 0 s label hl hs]
      rcases readFlag_cases env chip Reg.alarm feature.alarmNumber 20
        { s with world := (env.sensors_get_label s.world chip feature.feature).2 }
        with ⟨h0, hok⟩ | ⟨he, code, x, hcode, hev⟩
      · rw [hs.2] at hok
        rw [h0]
        exact Iteration.skipped label _ hs.1 hok
      · have h1 := congrArg Prod.fst he
        simp only at h1
        rw [h1, hev]
        exact Iteration.readError label [] Reg.alarm _ code x [] (by simp) hcode
          (Or.inr ⟨hs.1, rfl⟩)
    · rw [doFeature_full env chip action feature format 0 s label hl hs]
      simp only []
      rcases readFlag_cases env chip Reg.alarm feature.alarmNumber 20
        { s with world := (env.sensors_get_label s.world chip feature.feature).2 }
        with ⟨h0, hok⟩ | ⟨he, code, x, hcode, hev⟩
      · rw [h0]
        rcases readFlag_cases env chip Reg.beep feature.beepNumber 21
          (readFlag env chip Reg.alarm feature.alarmNumber 20 0
            { s with world := (env.sensors_get_label s.world chip feature.feature).2 }).2.2
          with ⟨hb0, hbok⟩ | ⟨hbe, code, x, hcode, hbev⟩
        · rw [hb0]
          by_cases hd : (readData env chip feature.dataNumbers 0 []
              (readFlag env chip Reg.beep feature.beepNumber 21 0
                (readFlag env chip Reg.alarm feature.alarmNumber 20 0
                  { s with world := (env.sensors_get_label s.world chip feature.feature).2 }).2.2).2.2).1.1 = 0
          · obtain ⟨xs, hlen, hev, hval⟩ := readData_ok env chip _ _ _ hd
            rw [hd, hev, hval]
            simp only [List.nil_append]
            refine Iteration.reported label _ _ _ _ _ xs hok ?_ hbok hlen
              (report_output env chip action feature format label _ _ _ _)
            intro hscan h0'
            exact hs ⟨hscan, h0'⟩
          · obtain ⟨h23, reads, n, c, x, hc, hreads, hev⟩ := readData_fail env chip _ _ _ hd
            rw [report_nonzero _ _ _ _ _ _ _ _ _ _ _ hd, h23, hev]
            have := @Iteration.readError W env chip action feature format label
              ((readFlag env chip Reg.alarm feature.alarmNumber 20 0
                { s with world := (env.sensors_get_label s.world chip feature.feature).2 }).2.1
                ++ (readFlag env chip Reg.beep feature.beepNumber 21 0
                (readFlag env chip Reg.alarm feature.alarmNumber 20 0
                  { s with world := (env.sensors_get_label s.world chip feature.feature).2 }).2.2).2.1
                ++ reads) Reg.data n c x [Event.free label]
              (by
                intro e he
                simp only [List.mem_append] at he
                rcases he with (he | he) | he
                · exact hok.okRead e he
                · exact hbok.okRead e he
                · exact hreads e he) hc (Or.inl rfl)
            simpa [Reg.code, List.append_assoc] using this
        · have h1 := congrArg Prod.fst hbe
          have h2 := congrArg Prod.snd hbe
          simp only at h1 h2
          rw [h1, h2, hbev]
          simp only [readData_nonzero env chip _ 21 _ _ (by decide),
            report_nonzero env chip action feature format label _ _ _ 21 _ (by decide)]
          have := @Iteration.readError W env chip action feature format label
              (readFlag env chip Reg.alarm feature.alarmNumber 20 0
                { s with world := (env.sensors_get_label s.world chip feature.feature).2 }).2.1
              Reg.beep feature.beepNumber code x [Event.free label] hok.okRead hcode
              (Or.inl rfl)
          simpa [Reg.code, List.append_assoc] using this
      · have h1 := congrArg Prod.fst he
        simp only at h1
        rw [h1, hev]
        simp only [readFlag_nonzero env chip _ _ _ 20 _ (by decide),
          readData_nonzero env chip _ 20 _ _ (by decide),
          report_nonzero env chip action feature format label _ _ _ 20 _ (by decide)]
        have := @Iteration.readError W env chip action feature format label
              [] Reg.alarm feature.alarmNumber code x [Event.free label] (by simp) hcode
              (Or.inl rfl)
        simpa [Reg.code, List.append_assoc] using this

theorem doFeatures_nonzero (env : Collab W) (chip : sensors_chip_name) (action : Int)
    (fs : List FeatureDescriptor) (ret : Int) (s : State W) (h : ret ≠ 0) :
    doFeatures env chip action fs ret s = (ret, [], s) := by
  cases fs <;> simp [doFeatures, h]

theorem doFeatures_cons (env : Collab W) (chip : sensors_chip_name) (action : Int)
    (f : FeatureDescriptor) (format : List ℚ → Int → Int → Option String)
    (rest : List FeatureDescriptor) (s : State W) (hf : f.format = some format) :
    doFeatures env chip action (f :: rest) 0 s =
      ((doFeatures env chip action rest (doFeature env chip action f format 0 s).1
          (doFeature env chip action f format 0 s).2.2).1,
       (doFeature env chip action f format 0 s).2.1 ++
        (doFeatures env chip action rest (doFeature env chip action f format 0 s).1
          (doFeature env chip action f format 0 s).2.2).2.1,
       (doFeatures env chip action rest (doFeature env chip action f format 0 s).1
          (doFeature env chip action f format 0 s).2.2).2.2) := by
  simp [doFeatures, hf]

theorem doFeatures_append (env : Collab W) (chip : sensors_chip_name) (action : Int)
    (pre post : List FeatureDescriptor) (ret : Int) (s : State W)
    (hpre : ∀ g ∈ pre, g.format ≠ none) :
    doFeatures env chip action (pre ++ post) ret s =
      ((doFeatures env chip action post (doFeatures env chip action pre ret s).1
          (doFeatures env chip action pre ret s).2.2).1,
       (doFeatures env chip action pre ret s).2.1 ++
        (doFeatures env chip action post (doFeatures env chip action pre ret s).1
          (doFeatures env chip action pre ret s).2.2).2.1,
       (doFeatures env chip action post (doFeatures env chip action pre ret s).1
          (doFeatures env chip action pre ret s).2.2).2.2) := by
  induction pre generalizing ret s with
  | nil => simp [doFeatures]
  | cons g pre ih =>
    by_cases hr : ret = 0
    · subst hr
      have hg : g.format ≠ none := hpre g (List.mem_cons_self _ _)
      obtain ⟨fmt, hfmt⟩ := Option.ne_none_iff_exists'.1 hg
      have ih' := fun r t => ih r t (fun x hx => hpre x (List.mem_cons_of_mem _ hx))
      rw [List.cons_append, doFeatures_cons env chip action g fmt _ s hfmt,
        doFeatures_cons env chip action g fmt _ s hfmt, ih']
      simp [List.append_assoc]
    · rw [doFeatures_nonzero env chip action _ ret s hr,
        doFeatures_nonzero env chip action _ ret s hr]
      simp [doFeatures_nonzero env chip action _ ret s hr]

theorem doFeature_rrdBuff_of_ne (env : Collab W) (chip : sensors_chip_name) (action : Int)
    (f : FeatureDescriptor) (format : List ℚ → Int → Int → Option String)
    (ret : Int) (s : State W)
    (h : action ≠ DO_RRD ∨ (doFeature env chip action f format ret s).1 ≠ 0) :
    (doFeature env chip action f format ret s).2.2.rrdBuff = s.rrdBuff := by
  cases hl : (env.sensors_get_label s.world chip f.feature).1 with
  | none => rw [doFeature_label_none env chip action f format ret s hl]
  | some label =>
    by_cases hs : action = DO_SCAN ∧
      (readFlag env chip Reg.alarm f.alarmNumber 20 ret
        { s with world := (env.sensors_get_label s.world chip f.feature).2 }).1.2 = 0
    · rw [doFeature_skip env chip action f format ret s label hl hs, readFlag_rrdBuff]
    · rw [doFeature_full env chip action f format ret s label hl hs] at h ⊢
      simp only [] at h ⊢
      have hrep : ∀ values alarm beep r (t : State W),
          (action ≠ DO_RRD ∨ r ≠ 0) →
          (report env chip action f format label values alarm beep r t).2.rrdBuff
            = t.rrdBuff := by
        intro values alarm beep r t h'
        simp only [report]
        split
        · split
          · rename_i h0 hr
            rcases h' with h' | h'
            · exact absurd hr h'
            · exact absurd h0 h'
          · split
            · split <;> rfl
            · rfl
        · rfl
      rw [hrep _ _ _ _ _ h, readData_rrdBuff, readFlag_rrdBuff, readFlag_rrdBuff]

theorem findChip_none (chip : sensors_chip_name) (known : List ChipDescriptor)
    (h : ∀ d ∈ known, d.name ≠ chip.addr) : findChip chip known = none := by
  induction known with
  | nil => rfl
  | cons d rest ih =>
    have hd : d.name ≠ chip.addr := h d (List.mem_cons_self _ _)
    have hr : ∀ d ∈ rest, d.name ≠ chip.addr := fun x hx => h x (List.mem_cons_of_mem _ hx)
    cases hf : d.features with
    | none => simp [findChip, hf]
    | some fs => simp [findChip, hf, hd, ih hr]

theorem idChip_ret (env : Collab W) (chip : sensors_chip_name) (s : State W) :
    (idChip env chip s).1 = 0 := by
  simp only [idChip]
  split <;> rfl

theorem idChip_events (env : Collab W) (chip : sensors_chip_name) (s : State W) :
    ∃ adapterLine, (adapterLine = [] ∨
        ∃ a, adapterLine = [Event.log LOG_INFO ("Adapter: " ++ a)]) ∧
      (idChip env chip s).2.1 =
        Event.log LOG_INFO ("Chip: " ++ showStr (chipName env chip s.world).1) :: adapterLine := by
  simp only [idChip]
  split
  · rename_i a _
    exact ⟨_, Or.inr ⟨a, rfl⟩, rfl⟩
  · exact ⟨[], Or.inl rfl, rfl⟩

theorem chip_line_ne_set (t : String) : "Chip: " ++ t ≠ "Set." := by
  intro h
  have := congrArg String.data h
  simp at this

theorem adapter_line_ne_set (t : String) : "Adapter: " ++ t ≠ "Set." := by
  intro h
  have := congrArg String.data h
  simp at this

theorem okRead_not_failed (e : Event) (h : Event.okRead e = true) : Event.failed e = false := by
  cases e <;> simp_all [Event.okRead, Event.failed]

theorem Output.not_failed {env : Collab W} {chip : sensors_chip_name} {action : Int}
    {f : FeatureDescriptor} {fmt : List ℚ → Int → Int → Option String} {label : String}
    {values : List ℚ} {alarm beep : Int} {out : List Event}
    (h : Output env chip action f fmt label values alarm beep out) :
    ∀ e ∈ out, Event.failed e = false := by
  cases h <;> simp [Event.failed]

theorem Iteration.zero_not_failed {env : Collab W} {chip : sensors_chip_name} {action : Int}
    {f : FeatureDescriptor} {fmt : List ℚ → Int → Int → Option String}
    {evs : List Event} {code : Int} (h : Iteration env chip action f fmt evs code)
    (h0 : code = 0) : ∀ e ∈ evs, Event.failed e = false := by
  cases h with
  | labelError => simp at h0
  | readError label reads site number code x released hreads hcode hrel =>
    cases site <;> simp [Reg.code] at h0
  | skipped label reads hscan hflag =>
    intro e he
    rcases List.mem_cons.1 he with rfl | he
    · rfl
    · exact okRead_not_failed e (hflag.okRead e he)
  | reported label ra rb out alarm beep values ha hscan hb hlen hout =>
    intro e he
    simp only [List.mem_cons, List.mem_append, List.cons_append, List.mem_nil_iff,
      or_false] at he
    rcases he with rfl | (((he | he) | he) | he) | rfl
    · rfl
    · exact okRead_not_failed e (ha.okRead e he)
    · exact okRead_not_failed e (hb.okRead e he)
    · exact okRead_not_failed e (dataReads_okRead _ _ _ e he)
    · exact hout.not_failed e he
    · rfl

theorem Iteration.aborted {env : Collab W} {chip : sensors_chip_name} {action : Int}
    {f : FeatureDescriptor} {fmt : List ℚ → Int → Int → Option String}
    {evs : List Event} {code : Int} (h : Iteration env chip action f fmt evs code)
    (h0 : code ≠ 0) : Aborted chip evs code := by
  cases h with
  | labelError => exact Aborted.label [] _ _ (by simp)
  | readError label reads site number code x released hreads hcode hrel =>
    exact Aborted.read [] _ label reads site number code x _ released (by simp) hreads hcode
      (hrel.elim Or.inr (fun h => Or.inl h.2))
  | skipped label reads hscan hflag => exact absurd rfl h0
  | reported label ra rb out alarm beep values ha hscan hb hlen hout => exact absurd rfl h0

theorem Aborted.code_ne_zero {chip : sensors_chip_name} {evs : List Event} {code : Int}
    (h : Aborted chip evs code) : code ≠ 0 := by
  cases h with
  | label => decide
  | read earlier name label reads site => cases site <;> decide

theorem Aborted.exists_failed {chip : sensors_chip_name} {evs : List Event} {code : Int}
    (h : Aborted chip evs code) : ∃ e ∈ evs, Event.failed e = true := by
  cases h with
  | label earlier name text =>
    exact ⟨Event.getLabel chip.addr name none, by simp, rfl⟩
  | read earlier name label reads site number code x text released hearlier hreads hcode =>
    exact ⟨Event.getValue site chip.addr number code x, by simp, by simp [Event.failed, hcode]⟩

theorem Aborted.prepend {chip : sensors_chip_name} {evs : List Event} {code : Int}
    (h : Aborted chip evs code) (pre : List Event)
    (hpre : ∀ e ∈ pre, Event.failed e = false) : Aborted chip (pre ++ evs) code := by
  cases h with
  | label earlier name text hearlier =>
    rw [← List.append_assoc]
    exact Aborted.label (pre ++ earlier) name text (by
      intro e he
      rcases List.mem_append.1 he with he | he
      · exact hpre e he
      · exact hearlier e he)
  | read earlier name label reads site number code x text released hearlier hreads hcode hrel =>
    rw [← List.append_assoc]
    exact Aborted.read (pre ++ earlier) name label reads site number code x text released (by
      intro e he
      rcases List.mem_append.1 he with he | he
      · exact hpre e he
      · exact hearlier e he) hreads hcode hrel

/-- The loop of `doKnownChip` entered with `ret = 0`: it returns 0 and no
retrieval failed, or it ends on a failed retrieval. -/
theorem doFeatures_outcome (env : Collab W) (chip : sensors_chip_name) (action : Int)
    (fs : List FeatureDescriptor) (s : State W) :
    ((doFeatures env chip action fs 0 s).1 = 0 ∧
      ∀ e ∈ (doFeatures env chip action fs 0 s).2.1, Event.failed e = false) ∨
    Aborted chip (doFeatures env chip action fs 0 s).2.1 (doFeatures env chip action fs 0 s).1 := by
  induction fs generalizing s with
  | nil => left; simp [doFeatures]
  | cons f rest ih =>
    cases hf : f.format with
    | none => left; simp [doFeatures, hf]
    | some fmt =>
      rw [doFeatures_cons env chip action f fmt rest s hf]
      have hit := doFeature_iteration env chip action f fmt s
      by_cases h0 : (doFeature env chip action f fmt 0 s).1 = 0
      · have hnf := hit.zero_not_failed h0
        rw [h0]
        rcases ih (doFeature env chip action f fmt 0 s).2.2 with ⟨hz, hn⟩ | hab
        · left
          refine ⟨hz, ?_⟩
          intro e he
          rcases List.mem_append.1 he with he | he
          · exact hnf e he
          · exact hn e he
        · right
          exact hab.prepend _ hnf
      · right
        rw [doFeatures_nonzero env chip action rest _ _ h0]
        simpa using hit.aborted h0

theorem idChip_not_failed (env : Collab W) (chip : sensors_chip_name) (s : State W) :
    ∀ e ∈ (idChip env chip s).2.1, Event.failed e = false := by
  obtain ⟨adapterLine, hal, hid⟩ := idChip_events env chip s
  rw [hid]
  rcases hal with rfl | ⟨a, rfl⟩ <;> simp [Event.failed]

theorem doKnownChip_outcome (env : Collab W) (chip : sensors_chip_name)
    (descriptor : ChipDescriptor) (action : Int) (s : State W) :
    ((doKnownChip env chip descriptor action s).1 = 0 ∧
      ∀ e ∈ (doKnownChip env chip descriptor action s).2.1, Event.failed e = false) ∨
    Aborted chip (doKnownChip env chip descriptor action s).2.1
      (doKnownChip env chip descriptor action s).1 := by
  simp only [doKnownChip]
  by_cases hr : action = DO_READ
  · simp only [hr, if_true, idChip_ret]
    rcases doFeatures_outcome env chip DO_READ (descriptor.features.getD [])
      (idChip env chip s).2.2 with ⟨hz, hn⟩ | hab
    · left
      refine ⟨hz, ?_⟩
      intro e he
      rcases List.mem_append.1 he with he | he
      · exact idChip_not_failed env chip s e he
      · exact hn e he
    · right
      exact hab.prepend _ (idChip_not_failed env chip s)
  · simp only [hr, if_false, List.nil_append]
    exact doFeatures_outcome env chip action _ s

/-- Values of `roundDouble`: 1 and 0.5 are `double`s; the `double` nearest
to 0.1, to -1/3 and to 0.49; a tie just below 1 and a tie just above 1 go to
1, whose significand is even, and the tie `1 + 3 * 2 ^ (-53)` goes up;
`2 ^ 53 + 1` goes to `2 ^ 53`; half the smallest subnormal goes to 0 and
three halves of it go to twice it. -/
theorem roundDouble_values :
    roundDouble 1 = 1 ∧ roundDouble (1 / 2) = 1 / 2 ∧
    roundDouble (1 / 10) = 3602879701896397 / 36028797018963968 ∧
    roundDouble (-1 / 3) = -6004799503160661 / 18014398509481984 ∧
    roundDouble (49 / 100) = 2206763817411543 / 4503599627370496 ∧
    roundDouble (1 - 1 / 2 ^ 54) = 1 ∧
    roundDouble (1 + 1 / 2 ^ 53) = 1 ∧
    roundDouble (1 + 3 / 2 ^ 53) = 1 + 1 / 2 ^ 51 ∧
    roundDouble (2 ^ 53 + 1) = 2 ^ 53 ∧
    roundDouble (1 / 2 ^ 1075) = 0 ∧
    roundDouble (3 / 2 ^ 1075) = 1 / 2 ^ 1073 := by
  decide!

theorem tdiv_of_nonneg (q : ℚ) (h : 0 ≤ q) : Int.tdiv q.num q.den = ⌊q⌋ := by
  rw [Rat.floor_def, Int.tdiv_eq_ediv (Rat.num_nonneg.2 h) (Int.ofNat_nonneg _)]

theorem tdiv_of_neg (q : ℚ) (h : q < 0) : Int.tdiv q.num q.den = ⌈q⌉ := by
  have h1 : Int.tdiv q.num q.den = -Int.tdiv (-q).num (-q).den := by simp
  rw [h1, tdiv_of_nonneg (-q) (by linarith), Int.floor_neg, neg_neg]

theorem toInt_in_range (outOfRange : ℚ → Int) (x : ℚ)
    (h : -2147483649 < x ∧ x < 2147483648) :
    toInt outOfRange x = Int.tdiv x.num x.den := by
  unfold toInt
  rw [if_pos h]

theorem toInt_of_nonneg (outOfRange : ℚ → Int) (x : ℚ) (h0 : 0 ≤ x) (h : x < 2147483648) :
    toInt outOfRange x = ⌊x⌋ := by
  rw [toInt_in_range outOfRange x ⟨by linarith, h⟩, tdiv_of_nonneg x h0]

theorem toInt_of_neg (outOfRange : ℚ → Int) (x : ℚ) (h0 : x < 0) (h : -2147483649 < x) :
    toInt outOfRange x = ⌈x⌉ := by
  rw [toInt_in_range outOfRange x ⟨h, by linarith⟩, tdiv_of_neg x h0]

theorem setChip_eq (env : Collab W) (chip : sensors_chip_name) (s : State W) :
    setChip env chip s =
      (if (env.sensors_do_chip_sets (idChip env chip s).2.2.world chip).1 = 0 then
        (0, (idChip env chip s).2.1 ++
          [Event.chipSets chip.addr (env.sensors_do_chip_sets (idChip env chip s).2.2.world chip).1,
           Event.log LOG_INFO "Set."],
         { (idChip env chip s).2.2 with
           world := (env.sensors_do_chip_sets (idChip env chip s).2.2.world chip).2 })
      else
        (50, (idChip env chip s).2.1 ++
          [Event.chipSets chip.addr (env.sensors_do_chip_sets (idChip env chip s).2.2.world chip).1,
           Event.log LOG_ERR
            ("Error performing chip sets: " ++ chip.pfx ++ ": " ++ env.sensors_strerror
              (env.sensors_do_chip_sets (idChip env chip s).2.2.world chip).1)],
         { (idChip env chip s).2.2 with
           world := (env.sensors_do_chip_sets (idChip env chip s).2.2.world chip).2 })) := by
  simp only [setChip, idChip_ret]
  by_cases hc : (env.sensors_do_chip_sets (idChip env chip s).2.2.world chip).1 = 0
  · simp [hc]
  · simp [hc]

theorem FlagOk.flag_inner {env : Collab W} {chip : sensors_chip_name} {site : Reg}
    {number : Int} {d : List Event} {flag : Int} (h : FlagOk env chip site number d flag) :
    ∀ e ∈ d, Event.isCycle e = false := by
  cases h with
  | absent _ => simp
  | read x _ => simp [Event.isCycle]

theorem okRead_inner (e : Event) (h : Event.okRead e = true) : Event.isCycle e = false := by
  cases e <;> simp_all [Event.okRead, Event.isCycle]

theorem Output.output_inner {env : Collab W} {chip : sensors_chip_name} {action : Int}
    {f : FeatureDescriptor} {fmt : List ℚ → Int → Int → Option String} {label : String}
    {values : List ℚ} {alarm beep : Int} {out : List Event}
    (h : Output env chip action f fmt label values alarm beep out) :
    ∀ e ∈ out, Event.isCycle e = false := by
  cases h <;> simp [Event.isCycle]

theorem Iteration.iteration_inner {env : Collab W} {chip : sensors_chip_name} {action : Int}
    {f : FeatureDescriptor} {fmt : List ℚ → Int → Int → Option String}
    {evs : List Event} {code : Int} (h : Iteration env chip action f fmt evs code) :
    ∀ e ∈ evs, Event.isCycle e = false := by
  cases h with
  | labelError => simp [Event.isCycle]
  | readError label reads site number code x released hreads hcode hrel =>
    intro e he
    simp only [List.mem_cons, List.mem_append, List.cons_append, List.mem_nil_iff,
      or_false] at he
    rcases he with rfl | ((he | rfl | rfl) | he)
    · rfl
    · exact okRead_inner e (hreads e he)
    · rfl
    · rfl
    · rcases hrel with rfl | ⟨_, rfl⟩
      · simp at he; subst he; rfl
      · simp at he
  | skipped label reads hscan hflag =>
    intro e he
    rcases List.mem_cons.1 he with rfl | he
    · rfl
    · exact hflag.flag_inner e he
  | reported label ra rb out alarm beep values ha hscan hb hlen hout =>
    intro e he
    simp only [List.mem_cons, List.mem_append, List.cons_append, List.mem_nil_iff,
      or_false] at he
    rcases he with rfl | (((he | he) | he) | he) | rfl
    · rfl
    · exact ha.flag_inner e he
    · exact hb.flag_inner e he
    · exact okRead_inner e (dataReads_okRead _ _ _ e he)
    · exact hout.output_inner e he
    · rfl

theorem doFeatures_inner (env : Collab W) (chip : sensors_chip_name) (action : Int)
    (fs : List FeatureDescriptor) (ret : Int) (s : State W) :
    ∀ e ∈ (doFeatures env chip action fs ret s).2.1, Event.isCycle e = false := by
  induction fs generalizing ret s with
  | nil => simp [doFeatures]
  | cons f rest ih =>
    by_cases hr : ret = 0
    · subst hr
      cases hf : f.format with
      | none => simp [doFeatures, hf]
      | some fmt =>
        rw [doFeatures_cons env chip action f fmt rest s hf]
        intro e he
        rcases List.mem_append.1 he with he | he
        · exact (doFeature_iteration env chip action f fmt s).iteration_inner e he
        · exact ih _ _ e he
    · rw [doFeatures_nonzero env chip action _ ret s hr]
      simp

theorem idChip_inner (env : Collab W) (chip : sensors_chip_name) (s : State W) :
    ∀ e ∈ (idChip env chip s).2.1, Event.isCycle e = false := by
  obtain ⟨adapterLine, hal, hid⟩ := idChip_events env chip s
  rw [hid]
  rcases hal with rfl | ⟨a, rfl⟩ <;> simp [Event.isCycle]

theorem doChip_inner (env : Collab W) (known : List ChipDescriptor)
    (chip : sensors_chip_name) (action : Int) (s : State W) :
    ∀ e ∈ (doChip env known chip action s).2.1, Event.isCycle e = false := by
  simp only [doChip]
  split
  · rw [setChip_eq]
    intro e he
    split at he <;>
    · simp only [List.mem_append, List.mem_cons, List.mem_nil_iff, or_false] at he
      rcases he with he | rfl | rfl
      · exact idChip_inner env chip s e he
      · rfl
      · rfl
  · split
    · simp only [doKnownChip]
      intro e he
      rcases List.mem_append.1 he with he | he
      · split at he
        · exact idChip_inner env chip s e he
        · simp at he
      · exact doFeatures_inner env chip action _ _ _ e he
    · simp

theorem cycle_doChip (env : Collab W) (known : List ChipDescriptor)
    (chip : sensors_chip_name) (action : Int) (s : State W) :
    cycle (doChip env known chip action s).2.1 = [] := by
  unfold cycle
  rw [List.filter_eq_nil_iff]
  intro e he
  simp [doChip_inner env known chip action s e he]

theorem cycle_append (a b : List Event) : cycle (a ++ b) = cycle a ++ cycle b := by
  simp [cycle]

theorem doPattern_nonzero (env : Collab W) (known : List ChipDescriptor) (action : Int)
    (pattern : String) (cs : List sensors_chip_name) (i : Nat) (ret : Int) (s : State W)
    (h : ret ≠ 0) : doPattern env known action pattern cs i ret s = (ret, [], s) := by
  cases cs <;> simp [doPattern, h]

theorem doPatterns_nonzero (env : Collab W) (known : List ChipDescriptor) (action : Int)
    (ps : List String) (ret : Int) (s : State W) (h : ret ≠ 0) :
    doPatterns env known action ps ret s = (ret, [], s) := by
  cases ps <;> simp [doPatterns, h]

/-- One pattern, entered with `ret = 0`: the pass goes as planned and
returns 0, or it ends with a chip-level call that returns a non-zero code,
the first one, which is the code returned. -/
theorem doPattern_plan (env : Collab W) (known : List ChipDescriptor) (action : Int)
    (pattern : String) (cs : List sensors_chip_name) (i : Nat) (s : State W) :
    ((doPattern env known action pattern cs i 0 s).1 = 0 ∧
      cycle (doPattern env known action pattern cs i 0 s).2.1 = planFrom pattern cs i) ∨
    ((doPattern env known action pattern cs i 0 s).1 ≠ 0 ∧
      ∃ before chip t, (doPattern env known action pattern cs i 0 s).2.1 =
          before ++ (doChip env known chip action t).2.1
            ++ [Event.chipReturn chip.addr (doPattern env known action pattern cs i 0 s).1] ∧
        (doChip env known chip action t).1 = (doPattern env known action pattern cs i 0 s).1 ∧
        (doChip env known chip action t).2.2 =
          (doPattern env known action pattern cs i 0 s).2.2 ∧
        (cycle before ++ [Event.chipReturn chip.addr 0]) <+: planFrom pattern cs i) := by
  induction cs generalizing i s with
  | nil => left; simp [doPattern, cycle, planFrom, Event.isCycle]
  | cons chip rest ih =>
    simp only [doPattern, if_true]
    by_cases h0 : (doChip env known chip action s).1 = 0
    · rw [h0]
      rcases ih (i + 1) (doChip env known chip action s).2.2 with
        ⟨hz, hp⟩ | ⟨hn, before, c, t, he, hc, hs, hp⟩
      · left
        refine ⟨hz, ?_⟩
        rw [← List.singleton_append, cycle_append, cycle_append, cycle_doChip,
          ← List.singleton_append (l := (doPattern _ _ _ _ _ _ _ _).2.1), cycle_append, hp]
        simp [cycle, planFrom, Event.isCycle]
      · right
        refine ⟨hn, Event.enumerate pattern i (some chip.addr) ::
          ((doChip env known chip action s).2.1 ++ Event.chipReturn chip.addr 0 :: before),
          c, t, ?_, hc, hs, ?_⟩
        · rw [he]; simp
        · have h1 : cycle (Event.enumerate pattern i (some chip.addr) ::
              ((doChip env known chip action s).2.1 ++ Event.chipReturn chip.addr 0 :: before))
              = Event.enumerate pattern i (some chip.addr) :: Event.chipReturn chip.addr 0
                :: cycle before := by
            rw [← List.singleton_append, cycle_append, cycle_append, cycle_doChip,
              ← List.singleton_append (l := before), cycle_append]
            simp [cycle, Event.isCycle]
          rw [h1]
          simp only [planFrom, List.cons_append]
          exact (List.prefix_cons_inj _).2 ((List.prefix_cons_inj _).2 hp)
    · right
      rw [doPattern_nonzero env known action pattern rest _ _ _ h0]
      refine ⟨h0, [Event.enumerate pattern i (some chip.addr)], chip, s, by simp, rfl, rfl, ?_⟩
      have h1 : cycle [Event.enumerate pattern i (some chip.addr)]
          = [Event.enumerate pattern i (some chip.addr)] := by
        simp [cycle, Event.isCycle]
      rw [h1]
      simp only [planFrom, List.cons_append, List.nil_append]
      exact (List.prefix_cons_inj _).2 ((List.prefix_cons_inj _).2 (List.nil_prefix))

theorem plan_cons (env : Collab W) (p : String) (ps : List String) :
    plan env (p :: ps) = planFrom p (env.detected p) 0 ++ plan env ps := by
  simp [plan]

/-- The loop over the patterns, entered with `ret = 0`: the cycle goes as
planned and returns 0, or it ends with a chip-level call that returns a
non-zero code, the first one, which is the code returned. -/
theorem doPatterns_plan (env : Collab W) (known : List ChipDescriptor) (action : Int)
    (ps : List String) (s : State W) :
    ((doPatterns env known action ps 0 s).1 = 0 ∧
      cycle (doPatterns env known action ps 0 s).2.1 = plan env ps) ∨
    ((doPatterns env known action ps 0 s).1 ≠ 0 ∧
      ∃ before chip t, (doPatterns env known action ps 0 s).2.1 =
          before ++ (doChip env known chip action t).2.1
            ++ [Event.chipReturn chip.addr (doPatterns env known action ps 0 s).1] ∧
        (doChip env known chip action t).1 = (doPatterns env known action ps 0 s).1 ∧
        (doChip env known chip action t).2.2 = (doPatterns env known action ps 0 s).2.2 ∧
        (cycle before ++ [Event.chipReturn chip.addr 0]) <+: plan env ps) := by
  induction ps generalizing s with
  | nil => left; simp [doPatterns, cycle, plan]
  | cons p rest ih =>
    simp only [doPatterns, if_true]
    rcases doPattern_plan env known action p (env.detected p) 0 s with
      ⟨hz, hp⟩ | ⟨hn, before, c, t, he, hc, hs, hp⟩
    · rw [hz]
      rcases ih (doPattern env known action p (env.detected p) 0 0 s).2.2 with
        ⟨hz', hp'⟩ | ⟨hn', before', c', t', he', hc', hs', hp'⟩
      · left
        exact ⟨hz', by rw [cycle_append, hp, hp', plan_cons]⟩
      · right
        refine ⟨hn', (doPattern env known action p (env.detected p) 0 0 s).2.1 ++ before',
          c', t', ?_, hc', hs', ?_⟩
        · rw [he']; simp
        · rw [cycle_append, hp, plan_cons, List.append_assoc]
          exact (List.prefix_append_right_inj _).2 hp'
    · right
      rw [doPatterns_nonzero env known action rest _ _ hn]
      refine ⟨hn, before, c, t, by simpa using he, hc, hs, ?_⟩
      rw [plan_cons]
      exact hp.trans (List.prefix_append _ _)

theorem Spec.run_append (step : sensors_chip_name → State W → Int × List Event × State W)
    (a b : List (String × Nat × Option sensors_chip_name)) (s : State W) :
    Spec.run step (a ++ b) s =
      (if (Spec.run step a s).1 ≠ 0 then Spec.run step a s
       else ((Spec.run step b (Spec.run step a s).2.2).1,
         (Spec.run step a s).2.1 ++ (Spec.run step b (Spec.run step a s).2.2).2.1,
         (Spec.run step b (Spec.run step a s).2.2).2.2)) := by
  induction a generalizing s with
  | nil => simp [Spec.run]
  | cons call rest ih =>
    obtain ⟨pattern, i, result⟩ := call
    cases result with
    | none =>
      simp only [List.cons_append, Spec.run, List.append_eq]
      rw [ih]
      by_cases h : (Spec.run step rest s).1 = 0
      · simp [h]
      · simp [h]
    | some chip =>
      simp only [List.cons_append, Spec.run]
      by_cases h0 : (step chip s).1 = 0
      · simp only [h0, ne_eq, not_true_eq_false, if_false, List.append_eq]
        rw [ih]
        by_cases h : (Spec.run step rest (step chip s).2.2).1 = 0
        · simp [h]
        · simp [h]
      · simp [h0]

/-- One pattern, entered with `ret = 0`, is a run over the calls for that
pattern. -/
theorem doPattern_run (env : Collab W) (known : List ChipDescriptor) (action : Int)
    (pattern : String) (cs : List sensors_chip_name) (i : Nat) (s : State W) :
    doPattern env known action pattern cs i 0 s =
      Spec.run (fun chip t => doChip env known chip action t)
        (Spec.callsFrom pattern cs i) s := by
  induction cs generalizing i s with
  | nil => simp [doPattern, Spec.callsFrom, Spec.run]
  | cons chip rest ih =>
    simp only [doPattern, if_true, Spec.callsFrom, Spec.run]
    by_cases h0 : (doChip env known chip action s).1 = 0
    · simp only [h0, ne_eq, not_true_eq_false, if_false, ih]
    · rw [doPattern_nonzero env known action pattern rest _ _ _ h0]
      simp [h0]

theorem Spec.calls_cons (env : Collab W) (p : String) (ps : List String) :
    Spec.calls env (p :: ps) = Spec.callsFrom p (env.detected p) 0 ++ Spec.calls env ps := by
  simp [Spec.calls]

/-- The loop over the patterns, entered with `ret = 0`, is a run over the
calls of the cycle. -/
theorem doPatterns_run (env : Collab W) (known : List ChipDescriptor) (action : Int)
    (ps : List String) (s : State W) :
    doPatterns env known action ps 0 s =
      Spec.run (fun chip t => doChip env known chip action t) (Spec.calls env ps) s := by
  induction ps generalizing s with
  | nil => simp [doPatterns, Spec.calls, Spec.run]
  | cons p rest ih =>
    simp only [doPatterns, if_true]
    rw [Spec.calls_cons, Spec.run_append, doPattern_run]
    by_cases h0 : (Spec.run (fun chip t => doChip env known chip action t)
        (Spec.callsFrom p (env.detected p) 0) s).1 = 0
    · rw [if_neg (by simpa using h0), h0, ih]
    · rw [if_pos h0, doPatterns_nonzero env known action rest _ _ h0]
      simp

theorem planFrom_return_zero (pattern : String) (cs : List sensors_chip_name) (i : Nat)
    (c : Nat) (code : Int) (h : Event.chipReturn c code ∈ planFrom pattern cs i) :
    code = 0 := by
  induction cs generalizing i with
  | nil => simp [planFrom] at h
  | cons chip rest ih =>
    simp only [planFrom, List.mem_cons] at h
    rcases h with h | h | h
    · cases h
    · cases h; rfl
    · exact ih _ h

theorem plan_return_zero (env : Collab W) (ps : List String) (c : Nat) (code : Int)
    (h : Event.chipReturn c code ∈ plan env ps) : code = 0 := by
  simp only [plan, List.mem_flatten, List.mem_map] at h
  obtain ⟨l, ⟨p, _, rfl⟩, hl⟩ := h
  exact planFrom_return_zero p _ _ c code hl

theorem Aborted.code_mem {chip : sensors_chip_name} {evs : List Event} {code : Int}
    (h : Aborted chip evs code) : code ∈ [0, 20, 21, 22, 23] := by
  cases h with
  | label => decide
  | read earlier name label reads site => cases site <;> decide

/-- The codes that `doKnownChip` returns. -/
theorem doKnownChip_ret (env : Collab W) (chip : sensors_chip_name)
    (descriptor : ChipDescriptor) (action : Int) (s : State W) :
    (doKnownChip env chip descriptor action s).1 ∈ [0, 20, 21, 22, 23] := by
  rcases doKnownChip_outcome env chip descriptor action s with ⟨hz, _⟩ | hab
  · rw [hz]; decide
  · exact hab.code_mem

theorem doChip_ret (env : Collab W) (known : List ChipDescriptor)
    (chip : sensors_chip_name) (action : Int) (s : State W) (h : action ≠ DO_SET) :
    (doChip env known chip action s).1 ∈ [0, 20, 21, 22, 23] := by
  simp only [doChip, if_neg h]
  split
  · exact doKnownChip_ret env chip _ action s
  · simp

theorem doChip_set_ret (env : Collab W) (known : List ChipDescriptor)
    (chip : sensors_chip_name) (s : State W) :
    (doChip env known chip DO_SET s).1 ∈ [0, 50] := by
  simp only [doChip, if_true, setChip_eq]
  split <;> simp

theorem doPattern_ret (env : Collab W) (known : List ChipDescriptor) (action : Int)
    (codes : List Int) (hd : ∀ chip s, (doChip env known chip action s).1 ∈ codes)
    (pattern : String) (cs : List sensors_chip_name) (i : Nat) (ret : Int) (s : State W)
    (hret : ret ∈ codes) :
    (doPattern env known action pattern cs i ret s).1 ∈ codes := by
  induction cs generalizing i ret s with
  | nil => simp only [doPattern]; split <;> exact hret
  | cons chip rest ih =>
    simp only [doPattern]
    split
    · exact ih _ _ _ (hd _ _)
    · exact hret

theorem doPatterns_ret (env : Collab W) (known : List ChipDescriptor) (action : Int)
    (codes : List Int) (hd : ∀ chip s, (doChip env known chip action s).1 ∈ codes)
    (ps : List String) (ret : Int) (s : State W) (hret : ret ∈ codes) :
    (doPatterns env known action ps ret s).1 ∈ codes := by
  induction ps generalizing ret s with
  | nil => exact hret
  | cons p rest ih =>
    simp only [doPatterns]
    split
    · exact ih _ _ (doPattern_ret env known action codes hd p _ _ _ _ hret)
    · exact hret

theorem error_lines_differ (a b c : String) :
    "Error identifying chip: " ++ a ≠ "Error performing chip sets: " ++ b ++ ": " ++ c := by
  intro h
  have := congrArg String.data h
  simp at this

/-- When the loop of `doKnownChip` returns 0 on an array without terminator,
its events are one iteration per feature, in order, each ending with
`ret = 0`. -/
theorem doFeatures_blocks (env : Collab W) (chip : sensors_chip_name) (action : Int)
    (fs : List FeatureDescriptor) (s : State W)
    (hfs : ∀ f ∈ fs, f.format ≠ none)
    (h0 : (doFeatures env chip action fs 0 s).1 = 0) :
    ∃ blocks, (doFeatures env chip action fs 0 s).2.1 = blocks.flatten ∧
      List.Forall₂ (fun f b => ∃ fmt, f.format = some fmt ∧
        Iteration env chip action f fmt b 0) fs blocks := by
  induction fs generalizing s with
  | nil => exact ⟨[], by simp [doFeatures], List.Forall₂.nil⟩
  | cons f rest ih =>
    obtain ⟨fmt, hfmt⟩ := Option.ne_none_iff_exists'.1 (hfs f (List.mem_cons_self _ _))
    rw [doFeatures_cons env chip action f fmt rest s hfmt] at h0 ⊢
    have hit := doFeature_iteration env chip action f fmt s
    by_cases hz : (doFeature env chip action f fmt 0 s).1 = 0
    · rw [hz] at h0 hit ⊢
      obtain ⟨blocks, hb, hall⟩ := ih (doFeature env chip action f fmt 0 s).2.2
        (fun x hx => hfs x (List.mem_cons_of_mem _ hx)) h0
      exact ⟨(doFeature env chip action f fmt 0 s).2.1 :: blocks, by simp [hb],
        List.Forall₂.cons ⟨fmt, hfmt, hit⟩ hall⟩
    · rw [doFeatures_nonzero env chip action rest _ _ hz] at h0
      exact absurd h0 hz

theorem Iteration.readReport {env : Collab W} {chip : sensors_chip_name}
    {f : FeatureDescriptor} {fmt : List ℚ → Int → Int → Option String}
    {evs : List Event} (h : Iteration env chip DO_READ f fmt evs 0) (hf : f.format = some fmt) :
    ReadReport env chip f evs := by
  generalize hc : (0 : Int) = code at h
  generalize ha : DO_READ = action at h
  cases h with
  | labelError => cases hc
  | readError label reads site number code x released hreads hcode hrel =>
    cases site <;> simp [Reg.code] at hc
  | skipped label reads hscan hflag => subst ha; cases hscan
  | reported label ra rb out alarm beep values hfa hscan hfb hlen hout =>
    subst ha
    have := @ReadReport.mk W env chip f fmt label ra rb alarm beep values hf hfa hfb hlen
    cases hout with
    | noSeries h => cases h
    | series rrd h => cases h
    | silent _ hn => rw [hn] at this; simpa [infoLine, List.append_assoc] using this
    | info text _ hs => rw [hs] at this; simpa [infoLine, List.append_assoc] using this
    | alert text w _ h => exact absurd rfl h

theorem Iteration.scanReport {env : Collab W} {chip : sensors_chip_name}
    {f : FeatureDescriptor} {fmt : List ℚ → Int → Int → Option String}
    {evs : List Event} (h : Iteration env chip DO_SCAN f fmt evs 0) (hf : f.format = some fmt) :
    ScanReport env chip f evs := by
  generalize hc : (0 : Int) = code at h
  generalize ha : DO_SCAN = action at h
  cases h with
  | labelError => cases hc
  | readError label reads site number code x released hreads hcode hrel =>
    cases site <;> simp [Reg.code] at hc
  | skipped label reads hscan hflag => exact ScanReport.quiet label reads hflag
  | reported label ra rb out alarm beep values hfa hscan hfb hlen hout =>
    subst ha
    cases hout with
    | noSeries h => cases h
    | series rrd h => cases h
    | silent _ hn =>
      have := @ScanReport.alarmed W env chip f fmt label ra rb alarm beep values ""
        hf hfa (hscan rfl) hfb hlen (fun h => absurd hn h)
      rw [hn] at this; simpa [alertLine, List.append_assoc] using this
    | info text h _ => cases h
    | alert text w _ _ hs =>
      have := @ScanReport.alarmed W env chip f fmt label ra rb alarm beep values
        (showStr (chipName env chip w).1) hf hfa (hscan rfl) hfb hlen (fun _ => ⟨w, rfl⟩)
      rw [hs] at this; simpa [alertLine, List.append_assoc] using this

theorem idChip_lines (env : Collab W) (chip : sensors_chip_name) (s : State W) :
    (idChip env chip s).2.1 =
      Event.log LOG_INFO ("Chip: " ++ showStr (chipName env chip s.world).1)
        :: adapterInfo (env.sensors_get_adapter_name (chipName env chip s.world).2 chip.bus).1 := by
  simp only [idChip]
  split
  · rename_i a h
    rw [h]
    rfl
  · rename_i h
    rw [h]
    rfl

theorem infoLines_append (a b : List Event) :
    infoLines (a ++ b) = infoLines a ++ infoLines b := by
  simp [infoLines]

theorem infoLines_reads (reads : List Event) (h : ∀ e ∈ reads, Event.okRead e = true) :
    infoLines reads = [] := by
  unfold infoLines
  rw [List.filterMap_eq_nil_iff]
  intro e he
  have := h e he
  cases e <;> simp_all [Event.okRead]

theorem ScanReport.no_info {env : Collab W} {chip : sensors_chip_name}
    {f : FeatureDescriptor} {evs : List Event} (h : ScanReport env chip f evs) :
    infoLines evs = [] := by
  cases h with
  | quiet label reads hflag =>
    rw [← List.singleton_append, infoLines_append, infoLines_reads reads hflag.okRead]
    simp [infoLines]
  | alarmed format label ra rb alarm beep values name hf hfa hne hfb hlen hname =>
    rw [← List.singleton_append]
    simp only [infoLines_append, infoLines_reads ra hfa.okRead, infoLines_reads rb hfb.okRead,
      infoLines_reads _ (dataReads_okRead chip _ values)]
    rw [← List.singleton_append, infoLines_append]
    cases format values alarm beep <;> simp [infoLines, alertLine]

theorem scanReports_no_info {env : Collab W} {chip : sensors_chip_name}
    {fs : List FeatureDescriptor} {blocks : List (List Event)}
    (h : List.Forall₂ (ScanReport env chip) fs blocks) : infoLines blocks.flatten = [] := by
  induction h with
  | nil => rfl
  | cons hx _ ih => rw [List.flatten_cons, infoLines_append, hx.no_info, ih]; rfl

theorem Spec.appendTokens_append (buffer : String) (a b : List String) :
    Spec.appendTokens buffer (a ++ b) = Spec.appendTokens (Spec.appendTokens buffer a) b := by
  simp [Spec.appendTokens, List.foldl_append]

theorem readData_spec (env : Collab W) (chip : sensors_chip_name) (ns : List Int)
    (values : List ℚ) (s : State W) :
    (readData env chip ns 0 values s).2.2.world
      = (Spec.readAll env chip (dataRegisters ns) s.world).2 ∧
    ((Spec.readAll env chip (dataRegisters ns) s.world).1 = none →
      (readData env chip ns 0 values s).1.1 ≠ 0) ∧
    (∀ xs, (Spec.readAll env chip (dataRegisters ns) s.world).1 = some xs →
      (readData env chip ns 0 values s).1 = (0, values ++ xs)) := by
  induction ns generalizing values s with
  | nil => simp [readData, dataRegisters, Spec.readAll]
  | cons n ns ih =>
    by_cases hn : 0 ≤ n
    · have hreg : dataRegisters (n :: ns) = n :: dataRegisters ns := by
        simp [dataRegisters, List.takeWhile_cons, hn]
      by_cases hc : (env.sensors_get_value s.world chip n).1.1 = 0
      · rw [readData_cons_ok env chip n ns values s hn hc, hreg]
        simp only [Spec.readAll, hc, if_true]
        obtain ⟨hw, hnone, hsome⟩ := ih (values ++ [(env.sensors_get_value s.world chip n).1.2])
          { s with world := (env.sensors_get_value s.world chip n).2 }
        refine ⟨hw, ?_, ?_⟩
        · intro h
          exact hnone (by simpa using h)
        · intro xs h
          rcases Option.map_eq_some'.1 h with ⟨ys, hys, rfl⟩
          rw [hsome ys hys]
          simp
      · rw [readData_cons_fail env chip n ns values s hn hc, hreg]
        simp [Spec.readAll, hc]
    · rw [readData_cons_stop env chip n ns 0 values s hn]
      simp [dataRegisters, List.takeWhile_cons, hn, Spec.readAll]

theorem readFlag_spec (env : Collab W) (chip : sensors_chip_name) (site : Reg)
    (number err : Int) (s : State W) :
    (readFlag env chip site number err 0 s).2.2.world
      = (Spec.readAll env chip (Spec.flagRegister number) s.world).2 ∧
    ((Spec.readAll env chip (Spec.flagRegister number) s.world).1 = none →
      (readFlag env chip site number err 0 s).1.1 = err) ∧
    ((Spec.readAll env chip (Spec.flagRegister number) s.world).1 ≠ none →
      (readFlag env chip site number err 0 s).1.1 = 0) := by
  by_cases hn : number = -1
  · rw [readFlag_absent env chip site number err 0 s hn]
    simp [Spec.flagRegister, hn, Spec.readAll]
  · by_cases hc : (env.sensors_get_value s.world chip number).1.1 = 0
    · rw [readFlag_ok env chip site number err s hn hc]
      simp [Spec.flagRegister, hn, Spec.readAll, hc]
    · rw [readFlag_fail env chip site number err s hn hc]
      simp [Spec.flagRegister, hn, Spec.readAll, hc]

theorem report_rrd (env : Collab W) (chip : sensors_chip_name)
    (feature : FeatureDescriptor) (format : List ℚ → Int → Int → Option String)
    (label : String) (values : List ℚ) (alarm beep : Int) (s : State W) :
    (report env chip DO_RRD feature format label values alarm beep 0 s).2 =
      { s with rrdBuff := Spec.appendTokens s.rrdBuff (Spec.token feature values) } := by
  cases hf : feature.rrd with
  | none => simp [report, hf, Spec.token, Spec.appendTokens]
  | some rrd => simp [report, hf, Spec.token, Spec.appendTokens]

/-- One iteration in ExportSeries mode against the specification: the world
after it, and either a failure that leaves `rrdBuff` as it was, or `ret = 0`
and the token of the feature appended. -/
theorem doFeature_rrd_spec (env : Collab W) (chip : sensors_chip_name)
    (f : FeatureDescriptor) (fmt : List ℚ → Int → Int → Option String) (s : State W) :
    (doFeature env chip DO_RRD f fmt 0 s).2.2.world = (Spec.retrieve env chip f s.world).2 ∧
    ((Spec.retrieve env chip f s.world).1 = none →
      (doFeature env chip DO_RRD f fmt 0 s).1 ≠ 0 ∧
      (doFeature env chip DO_RRD f fmt 0 s).2.2.rrdBuff = s.rrdBuff) ∧
    (∀ values, (Spec.retrieve env chip f s.world).1 = some values →
      (doFeature env chip DO_RRD f fmt 0 s).1 = 0 ∧
      (doFeature env chip DO_RRD f fmt 0 s).2.2.rrdBuff
        = Spec.appendTokens s.rrdBuff (Spec.token f values)) := by
  cases hl : (env.sensors_get_label s.world chip f.feature).1 with
  | none =>
    rw [doFeature_label_none env chip DO_RRD f fmt 0 s hl]
    simp [Spec.retrieve, hl]
  | some label =>
    have hs : ¬ (DO_RRD = DO_SCAN ∧
        (readFlag env chip Reg.alarm f.alarmNumber 20 0
          { s with world := (env.sensors_get_label s.world chip f.feature).2 }).1.2 = 0) :=
      fun h => absurd h.1 (by decide)
    rw [doFeature_full env chip DO_RRD f fmt 0 s label hl hs]
    simp only [Spec.retrieve, hl]
    obtain ⟨haw, han, has⟩ := readFlag_spec env chip Reg.alarm f.alarmNumber 20
      { s with world := (env.sensors_get_label s.world chip f.feature).2 }
    have habuf := readFlag_rrdBuff env chip Reg.alarm f.alarmNumber 20 0
      { s with world := (env.sensors_get_label s.world chip f.feature).2 }
    generalize readFlag env chip Reg.alarm f.alarmNumber 20 0
      { s with world := (env.sensors_get_label s.world chip f.feature).2 } = ta at *
    simp only [] at haw han has habuf
    generalize Spec.readAll env chip (Spec.flagRegister f.alarmNumber)
      (env.sensors_get_label s.world chip f.feature).2 = ua at *
    cases hua : ua.1 with
    | none =>
      have h20 : ta.1.1 = 20 := han hua
      simp only [h20, readFlag_nonzero env chip Reg.beep f.beepNumber 21 20 ta.2.2 (by decide),
        readData_nonzero env chip f.dataNumbers 20 [] ta.2.2 (by decide),
        report_nonzero env chip DO_RRD f fmt label [] ta.1.2 0 20 ta.2.2 (by decide)]
      exact ⟨haw, fun _ => ⟨by decide, habuf⟩, fun values h => by cases h⟩
    | some xa =>
      have h0 : ta.1.1 = 0 := has (by rw [hua]; simp)
      simp only [h0]
      obtain ⟨hbw, hbn, hbs⟩ := readFlag_spec env chip Reg.beep f.beepNumber 21 ta.2.2
      have hbbuf := readFlag_rrdBuff env chip Reg.beep f.beepNumber 21 0 ta.2.2
      rw [haw] at hbw hbn hbs
      generalize readFlag env chip Reg.beep f.beepNumber 21 0 ta.2.2 = tb at *
      generalize Spec.readAll env chip (Spec.flagRegister f.beepNumber) ua.2 = ub at *
      cases hub : ub.1 with
      | none =>
        have h21 : tb.1.1 = 21 := hbn hub
        simp only [h21, readData_nonzero env chip f.dataNumbers 21 [] tb.2.2 (by decide),
          report_nonzero env chip DO_RRD f fmt label [] ta.1.2 tb.1.2 21 tb.2.2 (by decide)]
        exact ⟨hbw, fun _ => ⟨by decide, by rw [hbbuf, habuf]⟩, fun values h => by cases h⟩
      | some xb =>
        have h0' : tb.1.1 = 0 := hbs (by rw [hub]; simp)
        simp only [h0']
        obtain ⟨hdw, hdn, hds⟩ := readData_spec env chip f.dataNumbers [] tb.2.2
        have hdbuf := readData_rrdBuff env chip f.dataNumbers 0 [] tb.2.2
        rw [hbw] at hdw hdn hds
        generalize readData env chip f.dataNumbers 0 [] tb.2.2 = td at *
        generalize Spec.readAll env chip (dataRegisters f.dataNumbers) ub.2 = ud at *
        refine ⟨?_, ?_, ?_⟩
        · cases hud : ud.1 with
          | none =>
            rw [report_nonzero env chip DO_RRD f fmt label _ _ _ _ _ (hdn hud)]
            exact hdw
          | some xs =>
            have := hds xs hud
            have h1 : td.1.1 = 0 := by rw [this]
            rw [h1, report_rrd]
            exact hdw
        · intro hud
          refine ⟨hdn hud, ?_⟩
          rw [report_nonzero env chip DO_RRD f fmt label _ _ _ _ _ (hdn hud), hdbuf, hbbuf, habuf]
        · intro values hud
          have := hds values hud
          have h1 : td.1.1 = 0 := by rw [this]
          have h2 : td.1.2 = values := by rw [this]; simp
          refine ⟨h1, ?_⟩
          rw [h1, h2, report_rrd]
          simp only []
          rw [hdbuf, hbbuf, habuf]

/-- The loop of `doKnownChip` in ExportSeries mode against the
specification. -/
theorem doFeatures_rrd_spec (env : Collab W) (chip : sensors_chip_name)
    (fs : List FeatureDescriptor) (s : State W) :
    (doFeatures env chip DO_RRD fs 0 s).2.2.world = (Spec.chipTokens env chip fs s.world).2 ∧
    ((doFeatures env chip DO_RRD fs 0 s).1 ≠ 0 ↔
      (Spec.chipTokens env chip fs s.world).1.2 = true) ∧
    (doFeatures env chip DO_RRD fs 0 s).2.2.rrdBuff
      = Spec.appendTokens s.rrdBuff (Spec.chipTokens env chip fs s.world).1.1 := by
  induction fs generalizing s with
  | nil => simp [doFeatures, Spec.chipTokens, Spec.appendTokens]
  | cons f rest ih =>
    cases hf : f.format with
    | none => simp [doFeatures, Spec.chipTokens, hf, Spec.appendTokens]
    | some fmt =>
      rw [doFeatures_cons env chip DO_RRD f fmt rest s hf]
      simp only [Spec.chipTokens, hf]
      obtain ⟨hw, hnone, hsome⟩ := doFeature_rrd_spec env chip f fmt s
      cases hr : (Spec.retrieve env chip f s.world).1 with
      | none =>
        obtain ⟨hne, hbuf⟩ := hnone hr
        rw [doFeatures_nonzero env chip DO_RRD rest _ _ hne]
        exact ⟨hw, by simp [hne], by simp [hbuf, Spec.appendTokens]⟩
      | some values =>
        obtain ⟨hz, hbuf⟩ := hsome values hr
        rw [hz]
        obtain ⟨hw', hiff, hbuf'⟩ := ih (doFeature env chip DO_RRD f fmt 0 s).2.2
        rw [hw] at hw' hiff hbuf'
        refine ⟨hw', hiff, ?_⟩
        rw [hbuf', hbuf, Spec.appendTokens_append]

/-- One pattern in ExportSeries mode against the specification. -/
theorem doPattern_rrd_spec (env : Collab W) (known : List ChipDescriptor)
    (pattern : String) (cs : List sensors_chip_name) (i : Nat) (s : State W) :
    (doPattern env known DO_RRD pattern cs i 0 s).2.2.world
      = (Spec.cycleTokens env known cs s.world).2 ∧
    ((doPattern env known DO_RRD pattern cs i 0 s).1 ≠ 0 ↔
      (Spec.cycleTokens env known cs s.world).1.2 = true) ∧
    (doPattern env known DO_RRD pattern cs i 0 s).2.2.rrdBuff
      = Spec.appendTokens s.rrdBuff (Spec.cycleTokens env known cs s.world).1.1 := by
  induction cs generalizing i s with
  | nil => simp [doPattern, Spec.cycleTokens, Spec.appendTokens]
  | cons chip rest ih =>
    simp only [doPattern, if_true, Spec.cycleTokens]
    cases hfind : findChip chip known with
    | none =>
      have hd : doChip env known chip DO_RRD s = (0, [], s) := by
        simp [doChip, hfind]
      rw [hd]
      exact ih (i + 1) s
    | some descriptor =>
      have hd : doChip env known chip DO_RRD s = doKnownChip env chip descriptor DO_RRD s := by
        simp [doChip, hfind]
      rw [hd]
      simp only []
      have hk : doKnownChip env chip descriptor DO_RRD s =
          ((doFeatures env chip DO_RRD (descriptor.features.getD []) 0 s).1,
           (doFeatures env chip DO_RRD (descriptor.features.getD []) 0 s).2.1,
           (doFeatures env chip DO_RRD (descriptor.features.getD []) 0 s).2.2) := by
        simp [doKnownChip]
      rw [hk]
      obtain ⟨hw, hiff, hbuf⟩ := doFeatures_rrd_spec env chip (descriptor.features.getD []) s
      by_cases hfail : (Spec.chipTokens env chip (descriptor.features.getD []) s.world).1.2 = true
      · have hne := hiff.2 hfail
        simp only [hfail, if_true]
        rw [doPattern_nonzero env known DO_RRD pattern rest _ _ _ hne]
        exact ⟨hw, by simp [hne, hfail], hbuf⟩
      · have hz : (doFeatures env chip DO_RRD (descriptor.features.getD []) 0 s).1 = 0 := by
          by_contra h
          exact hfail (hiff.1 h)
        simp only [hfail, Bool.false_eq_true, if_false]
        rw [hz]
        obtain ⟨hw', hiff', hbuf'⟩ := ih (i + 1)
          (doFeatures env chip DO_RRD (descriptor.features.getD []) 0 s).2.2
        rw [hw] at hw' hiff' hbuf'
        refine ⟨hw', hiff', ?_⟩
        rw [hbuf', hbuf, Spec.appendTokens_append]

theorem Spec.cycleTokens_append (env : Collab W) (known : List ChipDescriptor)
    (a b : List sensors_chip_name) (w : W) :
    Spec.cycleTokens env known (a ++ b) w =
      (if (Spec.cycleTokens env known a w).1.2 = true then Spec.cycleTokens env known a w
       else (((Spec.cycleTokens env known a w).1.1
          ++ (Spec.cycleTokens env known b (Spec.cycleTokens env known a w).2).1.1,
          (Spec.cycleTokens env known b (Spec.cycleTokens env known a w).2).1.2),
          (Spec.cycleTokens env known b (Spec.cycleTokens env known a w).2).2)) := by
  induction a generalizing w with
  | nil => simp [Spec.cycleTokens]
  | cons chip rest ih =>
    simp only [List.cons_append, Spec.cycleTokens]
    cases hfind : findChip chip known with
    | none => exact ih w
    | some descriptor =>
      simp only []
      by_cases hfail : (Spec.chipTokens env chip (descriptor.features.getD []) w).1.2 = true
      · simp [hfail]
      · simp only [hfail, Bool.false_eq_true, if_false, List.append_eq]
        rw [ih]
        split <;> simp [List.append_assoc]

/-- The loop over the patterns in ExportSeries mode against the
specification. -/
theorem doPatterns_rrd_spec (env : Collab W) (known : List ChipDescriptor)
    (ps : List String) (s : State W) :
    (doPatterns env known DO_RRD ps 0 s).2.2.world
      = (Spec.cycleTokens env known (ps.map env.detected).flatten s.world).2 ∧
    ((doPatterns env known DO_RRD ps 0 s).1 ≠ 0 ↔
      (Spec.cycleTokens env known (ps.map env.detected).flatten s.world).1.2 = true) ∧
    (doPatterns env known DO_RRD ps 0 s).2.2.rrdBuff
      = Spec.appendTokens s.rrdBuff
          (Spec.cycleTokens env known (ps.map env.detected).flatten s.world).1.1 := by
  induction ps generalizing s with
  | nil => simp [doPatterns, Spec.cycleTokens, Spec.appendTokens]
  | cons p rest ih =>
    simp only [doPatterns, if_true, List.map_cons, List.flatten_cons]
    rw [Spec.cycleTokens_append]
    obtain ⟨hw, hiff, hbuf⟩ := doPattern_rrd_spec env known p (env.detected p) 0 s
    by_cases hfail : (Spec.cycleTokens env known (env.detected p) s.world).1.2 = true
    · have hne := hiff.2 hfail
      rw [if_pos hfail, doPatterns_nonzero env known DO_RRD rest _ _ hne]
      exact ⟨hw, by simp [hne, hfail], hbuf⟩
    · have hz : (doPattern env known DO_RRD p (env.detected p) 0 0 s).1 = 0 := by
        by_contra h
        exact hfail (hiff.1 h)
      rw [if_neg hfail, hz]
      obtain ⟨hw', hiff', hbuf'⟩ := ih (doPattern env known DO_RRD p (env.detected p) 0 0 s).2.2
      rw [hw] at hw' hiff' hbuf'
      refine ⟨hw', hiff', ?_⟩
      rw [hbuf', hbuf, Spec.appendTokens_append]

theorem start_ret (env : Collab W) (chip : sensors_chip_name) (action : Int) (s : State W) :
    (if action = DO_READ then idChip env chip s else (0, [], s)).1 = 0 := by
  split
  · exact idChip_ret env chip s
  · rfl

/-- A failing feature ends `doKnownChip`.  Let the array be `pre`, then `f`,
then `rest`; if the call on the array cut before `f` returns 0 and the
iteration for `f` entered in the state it leaves does not, then the call
returns the code of that iteration, its events are those of the features
before `f` followed by those of the iteration, and `rrdBuff` is what it was
when `f` was reached. -/
theorem doKnownChip_stops (env : Collab W) (chip : sensors_chip_name)
    (descriptor : ChipDescriptor) (action : Int) (s : State W)
    (pre : List FeatureDescriptor) (f : FeatureDescriptor)
    (fmt : List ℚ → Int → Int → Option String) (rest : List FeatureDescriptor)
    (hdesc : descriptor.features = some (pre ++ f :: rest))
    (hpre : ∀ g ∈ pre, g.format ≠ none) (hfmt : f.format = some fmt)
    (hreach : (doKnownChip env chip ⟨descriptor.name, some pre⟩ action s).1 = 0)
    (hfail : (doFeature env chip action f fmt 0
      (doKnownChip env chip ⟨descriptor.name, some pre⟩ action s).2.2).1 ≠ 0) :
    doKnownChip env chip descriptor action s =
      ((doFeature env chip action f fmt 0
          (doKnownChip env chip ⟨descriptor.name, some pre⟩ action s).2.2).1,
       (doKnownChip env chip ⟨descriptor.name, some pre⟩ action s).2.1 ++
         (doFeature env chip action f fmt 0
          (doKnownChip env chip ⟨descriptor.name, some pre⟩ action s).2.2).2.1,
       (doFeature env chip action f fmt 0
          (doKnownChip env chip ⟨descriptor.name, some pre⟩ action s).2.2).2.2) ∧
    (doFeature env chip action f fmt 0
        (doKnownChip env chip ⟨descriptor.name, some pre⟩ action s).2.2).2.2.rrdBuff =
      (doKnownChip env chip ⟨descriptor.name, some pre⟩ action s).2.2.rrdBuff := by
  refine ⟨?_, doFeature_rrdBuff_of_ne env chip action f fmt 0 _ (Or.inr hfail)⟩
  simp only [doKnownChip, hdesc, Option.getD_some, start_ret] at hreach hfail ⊢
  rw [doFeatures_append env chip action pre _ 0 _ hpre, hreach,
    doFeatures_cons env chip action f fmt rest _ hfmt,
    doFeatures_nonzero env chip action rest _ _ hfail]
  simp

theorem acquisitions_append (a b : List Event) :
    acquisitions (a ++ b) = acquisitions a ++ acquisitions b := by
  simp [acquisitions]

theorem releases_append (a b : List Event) :
    releases (a ++ b) = releases a ++ releases b := by
  simp [releases]

theorem acquisitions_reads (reads : List Event) (h : ∀ e ∈ reads, Event.okRead e = true) :
    acquisitions reads = [] := by
  unfold acquisitions
  rw [List.filter_eq_nil_iff]
  intro e he
  have := h e he
  cases e <;> simp_all [Event.okRead]

theorem releases_reads (reads : List Event) (h : ∀ e ∈ reads, Event.okRead e = true) :
    releases reads = [] := by
  unfold releases
  rw [List.filter_eq_nil_iff]
  intro e he
  have := h e he
  cases e <;> simp_all [Event.okRead]

theorem Output.no_label {env : Collab W} {chip : sensors_chip_name} {action : Int}
    {f : FeatureDescriptor} {fmt : List ℚ → Int → Int → Option String} {label : String}
    {values : List ℚ} {alarm beep : Int} {out : List Event}
    (h : Output env chip action f fmt label values alarm beep out) :
    acquisitions out = [] ∧ releases out = [] := by
  cases h <;> simp [acquisitions, releases]

/-- Outside ScanForAlarms mode an iteration releases the label it retrieved. -/
theorem Iteration.balanced {env : Collab W} {chip : sensors_chip_name} {action : Int}
    {f : FeatureDescriptor} {fmt : List ℚ → Int → Int → Option String}
    {evs : List Event} {code : Int} (h : Iteration env chip action f fmt evs code)
    (hs : action ≠ DO_SCAN) : (releases evs).length = (acquisitions evs).length := by
  cases h with
  | labelError => simp [acquisitions, releases]
  | readError label reads site number code x released hreads hcode hrel =>
    rcases hrel with rfl | ⟨h, _⟩
    · rw [← List.singleton_append]
      simp only [List.append_assoc, acquisitions_append, releases_append,
        acquisitions_reads reads hreads, releases_reads reads hreads]
      simp [acquisitions, releases]
    · exact absurd h hs
  | skipped label reads hscan hflag => exact absurd hscan hs
  | reported label ra rb out alarm beep values ha hscan hb hlen hout =>
    have hreads : ∀ e ∈ ra ++ rb ++ dataReads chip (dataRegisters f.dataNumbers) values,
        Event.okRead e = true := by
      intro e he
      simp only [List.mem_append] at he
      rcases he with (he | he) | he
      · exact ha.okRead e he
      · exact hb.okRead e he
      · exact dataReads_okRead _ _ _ e he
    rw [← List.singleton_append, List.append_assoc [_] ra, List.append_assoc [_] (ra ++ rb)]
    simp only [acquisitions_append, releases_append,
      acquisitions_reads _ hreads, releases_reads _ hreads, hout.no_label.1, hout.no_label.2]
    simp [acquisitions, releases]

theorem doFeatures_balanced (env : Collab W) (chip : sensors_chip_name) (action : Int)
    (fs : List FeatureDescriptor) (ret : Int) (s : State W) (hs : action ≠ DO_SCAN) :
    (releases (doFeatures env chip action fs ret s).2.1).length
      = (acquisitions (doFeatures env chip action fs ret s).2.1).length := by
  induction fs generalizing ret s with
  | nil => simp [doFeatures, acquisitions, releases]
  | cons f rest ih =>
    by_cases hr : ret = 0
    · subst hr
      cases hf : f.format with
      | none => simp [doFeatures, hf, acquisitions, releases]
      | some fmt =>
        rw [doFeatures_cons env chip action f fmt rest s hf, acquisitions_append,
          releases_append, List.length_append, List.length_append, ih,
          (doFeature_iteration env chip action f fmt s).balanced hs]
    · rw [doFeatures_nonzero env chip action _ ret s hr]
      simp [acquisitions, releases]

/-! ## The properties -/

/-- **C1.** In ScanForAlarms mode, let a feature be reached by the loop of
`doKnownChip` (the features before it were processed with `ret = 0`), let its
label be retrieved, and let its alarm flag be 0: it has no alarm register, or
the read of its alarm register succeeds with a value `x` such that
`(int) (x + 0.5)`, the sum being that of two `double`s, is 0.  Then the events of the iteration are the label
retrieval and, if there is an alarm register, the one read of it: there is no
read of the beep register or of a data register, no call of `format`, no log
line; `rrdBuff` is unchanged, `ret` stays 0, and the loop goes on with the
next feature. -/
theorem scan_skips_feature_without_alarm (env : Collab W) (chip : sensors_chip_name)
    (name : Nat) (pre : List FeatureDescriptor) (feature : FeatureDescriptor)
    (format : List ℚ → Int → Int → Option String) (rest : List FeatureDescriptor)
    (s s1 : State W) (evs : List Event) (label : String) (w1 : W)
    (hpre : ∀ g ∈ pre, g.format ≠ none)
    (hformat : feature.format = some format)
    (hreach : doFeatures env chip DO_SCAN pre 0 s = (0, evs, s1))
    (hlabel : env.sensors_get_label s1.world chip feature.feature = (some label, w1))
    (halarm : feature.alarmNumber = -1 ∨
      ((env.sensors_get_value w1 chip feature.alarmNumber).1.1 = 0 ∧
        toInt env.int_out_of_range
          (roundDouble ((env.sensors_get_value w1 chip feature.alarmNumber).1.2 + 1 / 2))
            = 0)) :
    let reads := if feature.alarmNumber = -1 then []
      else [Event.getValue Reg.alarm chip.addr feature.alarmNumber 0
              (env.sensors_get_value w1 chip feature.alarmNumber).1.2]
    let s2 : State W :=
      { world := if feature.alarmNumber = -1 then w1
          else (env.sensors_get_value w1 chip feature.alarmNumber).2,
        rrdBuff := s1.rrdBuff }
    doFeature env chip DO_SCAN feature format 0 s1 =
      (0, Event.getLabel chip.addr feature.feature.name (some label) :: reads, s2) ∧
    doKnownChip env chip ⟨name, some (pre ++ feature :: rest)⟩ DO_SCAN s =
      ((doFeatures env chip DO_SCAN rest 0 s2).1,
       evs ++ (Event.getLabel chip.addr feature.feature.name (some label) :: reads
          ++ (doFeatures env chip DO_SCAN rest 0 s2).2.1),
       (doFeatures env chip DO_SCAN rest 0 s2).2.2) := by
  intro reads s2
  have hl1 : (env.sensors_get_label s1.world chip feature.feature).1 = some label := by
    rw [hlabel]
  have hl2 : (env.sensors_get_label s1.world chip feature.feature).2 = w1 := by
    rw [hlabel]
  have hflag : readFlag env chip Reg.alarm feature.alarmNumber 20 0
      { s1 with world := (env.sensors_get_label s1.world chip feature.feature).2 }
      = ((0, 0), reads, s2) := by
    rw [hl2]
    by_cases hn : feature.alarmNumber = -1
    · rw [readFlag_absent env chip _ _ _ _ _ hn]
      simp [reads, s2, hn]
    · rcases halarm with h | ⟨hc, hz⟩
      · exact absurd h hn
      · rw [readFlag_ok env chip _ _ _ _ hn hc, hz]
        simp [reads, s2, hn]
  have hbody : doFeature env chip DO_SCAN feature format 0 s1 =
      (0, Event.getLabel chip.addr feature.feature.name (some label) :: reads, s2) := by
    rw [doFeature_skip env chip DO_SCAN feature format 0 s1 label hl1
      ⟨rfl, by rw [hflag]⟩, hflag]
  refine ⟨hbody, ?_⟩
  simp only [doKnownChip, Option.getD_some]
  rw [if_neg (by decide), doFeatures_append env chip DO_SCAN pre _ 0 s hpre, hreach]
  simp only [List.nil_append]
  rw [doFeatures_cons env chip DO_SCAN feature format rest s1 hformat, hbody]

/-- Witness of `scan_skips_feature_without_alarm`: the features `f2`, `f3`,
`f1` in ScanForAlarms mode; `f3` is reached after `f2`, and its alarm
register, 8, holds 0. -/
theorem scan_skips_feature_without_alarm_witness :
    doFeatures Demo.env Demo.chip DO_SCAN [Demo.f2] 0 Demo.start =
      (0, Demo.scanOfF2, ⟨4, "stale"⟩) ∧
    (Demo.env.sensors_get_value 5 Demo.chip Demo.f3.alarmNumber).1 = (0, 0) ∧
    toInt Demo.env.int_out_of_range (roundDouble (0 + 1 / 2)) = 0 ∧
    doFeature Demo.env Demo.chip DO_SCAN Demo.f3 Demo.format1 0 ⟨4, "stale"⟩ =
      (0, [Event.getLabel 1 "f3" (some "f3 label"), Event.getValue Reg.alarm 1 8 0 0],
       ⟨6, "stale"⟩) :=
  ⟨by decide!, by decide!, by decide!,
   (scan_skips_feature_without_alarm Demo.env Demo.chip 1 [Demo.f2] Demo.f3 Demo.format1
      [Demo.f1] Demo.start ⟨4, "stale"⟩ Demo.scanOfF2 "f3 label" 5
      (by simp [Demo.f2]) rfl (by decide!) (by decide!)
      (Or.inr ⟨by decide!, by decide!⟩)).1⟩

/-- ScanForAlarms on the feature `f7`, whose alarm register holds
0.49999999999999994, the `double` next below 0.5: the `double` sum with 0.5
is 1, the alarm flag is 1, and the feature is evaluated and reported. -/
theorem scan_reports_feature_below_half :
    roundDouble (9007199254740991 / 18014398509481984 + 1 / 2) = 1 ∧
    doKnownChip Demo.env Demo.chip ⟨1, some [Demo.f7]⟩ DO_SCAN Demo.start =
      (0, [Event.getLabel 1 "f7" (some "f7 label"),
           Event.getValue Reg.alarm 1 10 0 (9007199254740991 / 18014398509481984),
           Event.getValue Reg.data 1 2 0 30, Event.format [30] 1 0 (some "31 C"),
           Event.log LOG_ALERT "Sensor alarm: Chip lm78-isa-0290: f7 label: 31 C",
           Event.free "f7 label"], ⟨4, "stale"⟩) := by
  decide!

/-- **C2.** `doChips`, for every list of patterns, action and collaborator,
is the cycle of the specification (`Spec.run`) over the enumeration
`Spec.calls` with `doChip` as the chip-level processing: same return code,
same events in the same order, same final state.  So the matching chips are
processed by `doChip`, with the action of the cycle and each in the state
its predecessor left, pattern by pattern in configured order and within a
pattern in enumeration order, each chip as soon as it is enumerated; the cycle
returns the first non-zero code that `doChip` returns and ends there, and it
returns 0 when there is none.
In terms of the events: if `doChips` returns 0, its enumeration calls and
chip-level returns are those of the plan, every chip-level call returning 0.
If it returns a non-zero code, the call ends with the events of one call of
`doChip`, which returns that code and leaves the final state, followed by
the record of that return; what came before, with that return being 0
instead, is the beginning of the plan: the earlier chip-level calls returned
0 and no further chip is enumerated or processed, in this pattern or a later
one.  And it returns 0 exactly when every chip-level call returned 0. -/
theorem doChips_fail_fast (env : Collab W) (knownChips : List ChipDescriptor)
    (chipNames : List String) (action : Int) (s : State W) :
    doChips env knownChips chipNames action s =
      Spec.run (fun chip t => doChip env knownChips chip action t)
        (Spec.calls env chipNames) s ∧
    ((doChips env knownChips chipNames action s).1 = 0 →
      cycle (doChips env knownChips chipNames action s).2.1 = plan env chipNames) ∧
    ((doChips env knownChips chipNames action s).1 ≠ 0 →
      ∃ before chip t, (doChips env knownChips chipNames action s).2.1 =
          before ++ (doChip env knownChips chip action t).2.1
            ++ [Event.chipReturn chip.addr (doChips env knownChips chipNames action s).1] ∧
        (doChip env knownChips chip action t).1 =
          (doChips env knownChips chipNames action s).1 ∧
        (doChip env knownChips chip action t).2.2 =
          (doChips env knownChips chipNames action s).2.2 ∧
        (cycle before ++ [Event.chipReturn chip.addr 0]) <+: plan env chipNames) ∧
    ((doChips env knownChips chipNames action s).1 = 0 ↔
      ∀ c code, Event.chipReturn c code ∈ (doChips env knownChips chipNames action s).2.1 →
        code = 0) := by
  refine ⟨by unfold doChips; exact doPatterns_run env knownChips action chipNames s, ?_⟩
  unfold doChips
  rcases doPatterns_plan env knownChips action chipNames s with
    ⟨hz, hp⟩ | ⟨hn, before, c, t, he, hc, hs, hp⟩
  · refine ⟨fun _ => hp, fun h => absurd hz h, fun _ => ?_, fun _ => hz⟩
    intro c code hc
    have : Event.chipReturn c code ∈ cycle (doPatterns env knownChips action chipNames 0 s).2.1 := by
      simp [cycle, hc, Event.isCycle]
    rw [hp] at this
    exact plan_return_zero env chipNames c code this
  · refine ⟨fun h => absurd h hn, fun _ => ⟨before, c, t, he, hc, hs, hp⟩,
      fun h => absurd h hn, ?_⟩
    intro hall
    exact hall c.addr _ (by rw [he]; simp)

/-- The cycle of the demonstration system over the patterns "lm78-*" and "*"
in ScanForAlarms mode: the chip `chip` is enumerated and processed for the
first pattern and again for the second, the chip `other`, which is not in the
table, is enumerated and skipped, and the cycle returns 0.  With the feature
`f6`, whose alarm register cannot be read, in the table, the first chip-level
call returns 20, and so does the cycle, which ends there. -/
theorem doChips_demo :
    doChips Demo.env Demo.knownChips ["lm78-*", "*"] DO_SCAN Demo.start =
      (0, [Event.enumerate "lm78-*" 0 (some 1),
           Event.getLabel 1 "f1" (some "f1 label")] ++ Demo.scanOfF2 ++
          [Event.chipReturn 1 0, Event.enumerate "lm78-*" 1 none,
           Event.enumerate "*" 0 (some 1),
           Event.getLabel 1 "f1" (some "f1 label"),
           Event.getLabel 1 "f2" (some "f2 label"), Event.getValue Reg.alarm 1 7 0 1,
           Event.getValue Reg.data 1 2 0 30, Event.format [30] 1 0 (some "31 C"),
           Event.log LOG_ALERT "Sensor alarm: Chip lm78-isa-0290: f2 label: 31 C",
           Event.free "f2 label",
           Event.chipReturn 1 0, Event.enumerate "*" 1 (some 2), Event.chipReturn 2 0,
           Event.enumerate "*" 2 none], ⟨10, "stale"⟩) ∧
    doChips Demo.env [⟨1, some [Demo.f6, Demo.f1]⟩, ⟨0, none⟩] ["lm78-*", "*"] DO_SCAN
        Demo.start =
      (20, [Event.enumerate "lm78-*" 0 (some 1),
            Event.getLabel 1 "f6" (some "f6 label"), Event.getValue Reg.alarm 1 13 (-5) 0,
            Event.log LOG_ERR "Error getting sensor data: lm78/#13: bus busy",
            Event.chipReturn 1 20], ⟨2, "stale"⟩) := by
  decide!

/-- **C3.** `doKnownChip`, for every action (Read, ScanForAlarms and
ExportSeries are the ones it is called with), returns 0 exactly when no
retrieval of the call failed.  Otherwise the call ends on the first failed
retrieval (`Aborted`): no retrieval before it failed; a failed label
retrieval is followed by its ERROR line alone and the code is 22; a failed
register read comes after the successful label retrieval and successful
reads of the same feature, and is followed by its ERROR line and at most the
release of that label, the code being 20, 21 or 23 for the alarm, beep or a
data register; no other event follows, so that nothing is retrieved,
formatted, logged or exported for the later features.  In terms of the
failing feature `f`, with `pre` before it in the array and `rest` after it:
when the features of `pre` are processed without failure and the iteration
for `f` fails, the call returns the code of that iteration, its events are
those of `pre` followed by those of the iteration, and `rrdBuff` is what it
was when `f` was reached.  The four codes differ from each other and
from 0. -/
theorem doKnownChip_error_codes (env : Collab W) (chip : sensors_chip_name)
    (descriptor : ChipDescriptor) (action : Int) (s : State W) :
    ((doKnownChip env chip descriptor action s).1 = 0 ↔
      ∀ e ∈ (doKnownChip env chip descriptor action s).2.1, Event.failed e = false) ∧
    ((doKnownChip env chip descriptor action s).1 ≠ 0 →
      Aborted chip (doKnownChip env chip descriptor action s).2.1
        (doKnownChip env chip descriptor action s).1) ∧
    (∀ (pre : List FeatureDescriptor) (f : FeatureDescriptor)
        (fmt : List ℚ → Int → Int → Option String) (rest : List FeatureDescriptor),
      descriptor.features = some (pre ++ f :: rest) →
      (∀ g ∈ pre, g.format ≠ none) → f.format = some fmt →
      (doKnownChip env chip ⟨descriptor.name, some pre⟩ action s).1 = 0 →
      (doFeature env chip action f fmt 0
        (doKnownChip env chip ⟨descriptor.name, some pre⟩ action s).2.2).1 ≠ 0 →
      doKnownChip env chip descriptor action s =
        ((doFeature env chip action f fmt 0
            (doKnownChip env chip ⟨descriptor.name, some pre⟩ action s).2.2).1,
         (doKnownChip env chip ⟨descriptor.name, some pre⟩ action s).2.1 ++
           (doFeature env chip action f fmt 0
            (doKnownChip env chip ⟨descriptor.name, some pre⟩ action s).2.2).2.1,
         (doFeature env chip action f fmt 0
            (doKnownChip env chip ⟨descriptor.name, some pre⟩ action s).2.2).2.2) ∧
      (doFeature env chip action f fmt 0
          (doKnownChip env chip ⟨descriptor.name, some pre⟩ action s).2.2).2.2.rrdBuff =
        (doKnownChip env chip ⟨descriptor.name, some pre⟩ action s).2.2.rrdBuff) ∧
    (Reg.alarm.code = 20 ∧ Reg.beep.code = 21 ∧ Reg.data.code = 23) := by
  refine ⟨⟨?_, ?_⟩, ?_, ?_, by decide⟩
  · intro h0
    rcases doKnownChip_outcome env chip descriptor action s with ⟨_, hn⟩ | hab
    · exact hn
    · exact absurd h0 hab.code_ne_zero
  · intro hn
    rcases doKnownChip_outcome env chip descriptor action s with ⟨hz, _⟩ | hab
    · exact hz
    · obtain ⟨e, he, hf⟩ := hab.exists_failed
      rw [hn e he] at hf
      exact absurd hf (by decide)
  · intro h0
    rcases doKnownChip_outcome env chip descriptor action s with ⟨hz, _⟩ | hab
    · exact absurd hz h0
    · exact hab
  · intro pre f fmt rest hdesc hpre hfmt hreach hfail
    exact doKnownChip_stops env chip descriptor action s pre f fmt rest hdesc hpre hfmt
      hreach hfail

/-- Witness of `doKnownChip_error_codes`: ExportSeries on the features `f1`,
`f5`, `f2`; the second data register of `f5` cannot be read, the call returns
23 and `rrdBuff` holds the token of `f1` alone. -/
theorem doKnownChip_error_codes_witness :
    (doKnownChip Demo.env Demo.chip ⟨1, some [Demo.f1]⟩ DO_RRD Demo.start).1 = 0 ∧
    (doFeature Demo.env Demo.chip DO_RRD Demo.f5 Demo.format1 0
      (doKnownChip Demo.env Demo.chip ⟨1, some [Demo.f1]⟩ DO_RRD Demo.start).2.2).1 = 23 ∧
    (doKnownChip Demo.env Demo.chip ⟨1, some [Demo.f1, Demo.f5, Demo.f2]⟩ DO_RRD
      Demo.start).1 = 23 ∧
    (doKnownChip Demo.env Demo.chip ⟨1, some [Demo.f1, Demo.f5, Demo.f2]⟩ DO_RRD
      Demo.start).2.2.rrdBuff = "stale:30" ∧
    Aborted Demo.chip
      (doKnownChip Demo.env Demo.chip ⟨1, some [Demo.f1, Demo.f5, Demo.f2]⟩ DO_RRD
        Demo.start).2.1 23 :=
  ⟨by decide!, by decide!, by decide!, by decide!,
   (by decide! : (doKnownChip Demo.env Demo.chip ⟨1, some [Demo.f1, Demo.f5, Demo.f2]⟩ DO_RRD
      Demo.start).1 = 23) ▸
    (doKnownChip_error_codes Demo.env Demo.chip ⟨1, some [Demo.f1, Demo.f5, Demo.f2]⟩ DO_RRD
      Demo.start).2.1 (by decide!)⟩

/-- **C4.** A chip whose address matches no entry of `knownChips` is skipped by
`doChip` for the actions Read, ScanForAlarms and ExportSeries: the call
returns 0, gives rise to no event at all (no label retrieval, no register
read, no log line) and leaves the state, `rrdBuff` included, as it was. -/
theorem doChip_unknown_chip_skipped (env : Collab W) (knownChips : List ChipDescriptor)
    (chip : sensors_chip_name) (action : Int) (s : State W)
    (hunknown : ∀ d ∈ knownChips, d.name ≠ chip.addr)
    (haction : action = DO_READ ∨ action = DO_SCAN ∨ action = DO_RRD) :
    doChip env knownChips chip action s = (0, [], s) := by
  have hset : action ≠ DO_SET := by
    rcases haction with h | h | h <;> simp [h]
  simp [doChip, hset, findChip_none chip knownChips hunknown]

/-- Witness of `doChip_unknown_chip_skipped`: the chip `other` in Read mode. -/
theorem doChip_unknown_chip_skipped_witness :
    (∀ d ∈ Demo.knownChips, d.name ≠ Demo.other.addr) ∧
    doChip Demo.env Demo.knownChips Demo.other DO_READ Demo.start = (0, [], Demo.start) :=
  ⟨by decide, doChip_unknown_chip_skipped Demo.env Demo.knownChips Demo.other DO_READ
    Demo.start (by decide) (Or.inl rfl)⟩

/-- **C5.** After `rrdChips`, whatever code it returns, `rrdBuff` is the
export line of the specification: the literal "N" followed by ":token" for
each feature that has a series policy and whose retrievals succeeded, over
the chips of the table in enumeration order (the patterns in configured
order) and, within a chip, in declaration order, up to the first failing
retrieval; the token is the policy's result, or "U" when the policy yields no
value, and a feature without series policy gives nothing.  The line does not
depend on the previous content of `rrdBuff`. -/
theorem rrdChips_export_line (env : Collab W) (knownChips : List ChipDescriptor)
    (chipNames : List String) (s : State W) :
    (rrdChips env knownChips chipNames s).2.2.rrdBuff =
      Spec.exportLine
        (Spec.cycleTokens env knownChips (chipNames.map env.detected).flatten s.world).1.1 ∧
    ∀ stale : String,
      (rrdChips env knownChips chipNames { s with rrdBuff := stale }).2.2.rrdBuff =
        (rrdChips env knownChips chipNames s).2.2.rrdBuff := by
  have h : ∀ t : State W, (rrdChips env knownChips chipNames t).2.2.rrdBuff =
      Spec.exportLine
        (Spec.cycleTokens env knownChips (chipNames.map env.detected).flatten t.world).1.1 := by
    intro t
    simp only [rrdChips, doChips]
    exact (doPatterns_rrd_spec env knownChips chipNames { t with rrdBuff := "N" }).2.2
  exact ⟨h s, fun stale => by rw [h, h]⟩

/-- An ExportSeries cycle of the demonstration system over the features
`f1` (token "30"), `f2` (no value: "U"), `f3` (no series policy) and `f5`
(its second data register cannot be read): the cycle returns 23 and leaves
the line "N:30:U", whatever `rrdBuff` held before; the chip-level call on the
first chip returns 23 and no further chip or pattern is enumerated. -/
theorem rrdChips_demo :
    (rrdChips Demo.env [⟨1, some [Demo.f1, Demo.f2, Demo.f3, Demo.f5, Demo.f1]⟩, ⟨0, none⟩]
      ["lm78-*", "*"] Demo.start).1 = 23 ∧
    (rrdChips Demo.env [⟨1, some [Demo.f1, Demo.f2, Demo.f3, Demo.f5, Demo.f1]⟩, ⟨0, none⟩]
      ["lm78-*", "*"] Demo.start).2.2 = ⟨11, "N:30:U"⟩ ∧
    cycle (rrdChips Demo.env
      [⟨1, some [Demo.f1, Demo.f2, Demo.f3, Demo.f5, Demo.f1]⟩, ⟨0, none⟩]
      ["lm78-*", "*"] Demo.start).2.1
      = [Event.enumerate "lm78-*" 0 (some 1), Event.chipReturn 1 23] := by
  decide!

/-- **C6 (counterexample).** A feature whose alarm register holds -1, in Read
mode: the read succeeds, `floor (-1 + 0.5)` is -1, a non-zero flag, but the
flag read is 0, and 0 is what `doKnownChip` hands to `format`.  And a
register that holds `0.5 - 2 ^ (-54)`, the `double` next below 0.5: the
`double` sum with 0.5 is 1, so the flag read is 1, while `floor (x + 0.5)`
is 0. -/
theorem flag_of_minus_one_is_zero :
    (Demo.env.sensors_get_value Demo.start.world Demo.chip 9).1 = (0, -1) ∧
    (readFlag Demo.env Demo.chip Reg.alarm 9 20 0 Demo.start).1 = (0, 0) ∧
    ⌊(-1 : ℚ) + 1 / 2⌋ = -1 ∧
    (readFlag Demo.env Demo.chip Reg.alarm 9 20 0 Demo.start).1.2 ≠
      ⌊(Demo.env.sensors_get_value Demo.start.world Demo.chip 9).1.2 + 1 / 2⌋ ∧
    (doKnownChip Demo.env Demo.chip ⟨1, some [Demo.f4]⟩ DO_READ Demo.start).2.1
      = [Event.log LOG_INFO "Chip: lm78-isa-0290",
         Event.log LOG_INFO "Adapter: ISA adapter",
         Event.getLabel 1 "f4" (some "f4 label"),
         Event.getValue Reg.alarm 1 9 0 (-1),
         Event.format [] 0 0 (some "30 C"),
         Event.log LOG_INFO "  f4 label: 30 C",
         Event.free "f4 label"] ∧
    (Demo.env.sensors_get_value Demo.start.world Demo.chip 10).1
      = (0, 1 / 2 - 1 / 2 ^ 54) ∧
    roundDouble (1 / 2 - 1 / 2 ^ 54) = 1 / 2 - 1 / 2 ^ 54 ∧
    roundDouble ((1 / 2 - 1 / 2 ^ 54) + 1 / 2) = 1 ∧
    (readFlag Demo.env Demo.chip Reg.alarm 10 20 0 Demo.start).1 = (0, 1) ∧
    ⌊((1 / 2 - 1 / 2 ^ 54 : ℚ)) + 1 / 2⌋ = 0 := by
  decide!

/-- **C6 (amended).** The flag that a successful read of an alarm or beep
register gives is `(int) (x + 0.5)`: with `sum` the `double` sum of the value
`x` and 0.5 (the exact sum rounded to the nearest `double`) in the range of
`int`, the flag is `sum` truncated toward zero, `floor sum` for `sum ≥ 0` and
`ceil sum` for `sum < 0`.  Where the `double` sum is the exact sum, the flag
is `floor (x + 0.5)` for `x ≥ -0.5` and `ceil (x + 0.5)` for `x < -0.5`.  So,
on every platform, 0.49 (the `double` nearest to it) gives 0 (false), 0.5
gives 1 (true) and -0.5 gives 0. -/
theorem readFlag_truncates (env : Collab W) (chip : sensors_chip_name) (site : Reg)
    (number err : Int) (s : State W) (hnumber : number ≠ -1)
    (hcode : (env.sensors_get_value s.world chip number).1.1 = 0)
    (hrange :
      -2147483649 < roundDouble ((env.sensors_get_value s.world chip number).1.2 + 1 / 2) ∧
      roundDouble ((env.sensors_get_value s.world chip number).1.2 + 1 / 2) < 2147483648) :
    (readFlag env chip site number err 0 s).1.2 =
      (if 0 ≤ roundDouble ((env.sensors_get_value s.world chip number).1.2 + 1 / 2)
       then ⌊roundDouble ((env.sensors_get_value s.world chip number).1.2 + 1 / 2)⌋
       else ⌈roundDouble ((env.sensors_get_value s.world chip number).1.2 + 1 / 2)⌉) ∧
    (roundDouble ((env.sensors_get_value s.world chip number).1.2 + 1 / 2) =
        (env.sensors_get_value s.world chip number).1.2 + 1 / 2 →
      (readFlag env chip site number err 0 s).1.2 =
        (if -1 / 2 ≤ (env.sensors_get_value s.world chip number).1.2
         then ⌊(env.sensors_get_value s.world chip number).1.2 + 1 / 2⌋
         else ⌈(env.sensors_get_value s.world chip number).1.2 + 1 / 2⌉)) ∧
    toInt env.int_out_of_range (roundDouble (roundDouble (49 / 100) + 1 / 2)) = 0 ∧
    toInt env.int_out_of_range (roundDouble (1 / 2 + 1 / 2)) = 1 ∧
    toInt env.int_out_of_range (roundDouble (-1 / 2 + 1 / 2)) = 0 := by
  have hflag : (readFlag env chip site number err 0 s).1.2 =
      (if 0 ≤ roundDouble ((env.sensors_get_value s.world chip number).1.2 + 1 / 2)
       then ⌊roundDouble ((env.sensors_get_value s.world chip number).1.2 + 1 / 2)⌋
       else ⌈roundDouble ((env.sensors_get_value s.world chip number).1.2 + 1 / 2)⌉) := by
    rw [readFlag_ok env chip site number err s hnumber hcode]
    show toInt _ _ = _
    split
    · next h0 => exact toInt_of_nonneg _ _ h0 hrange.2
    · next h0 => exact toInt_of_neg _ _ (not_le.1 h0) hrange.1
  refine ⟨hflag, ?_, ?_, ?_, ?_⟩
  · intro hexact
    rw [hflag, hexact]
    by_cases hx : -1 / 2 ≤ (env.sensors_get_value s.world chip number).1.2
    · rw [if_pos (by linarith), if_pos hx]
    · rw [if_neg (by linarith), if_neg hx]
  · rw [toInt_in_range _ _ (by decide!)]
    decide!
  · rw [toInt_in_range _ _ (by decide!)]
    decide!
  · rw [toInt_in_range _ _ (by decide!)]
    decide!

/-- Witness of `readFlag_truncates`: register 9, which holds -1; the `double`
sum with 0.5 is the exact sum, -0.5, and the flag is `ceil (-0.5)`, 0. -/
theorem readFlag_truncates_witness :
    (9 : Int) ≠ -1 ∧ (Demo.env.sensors_get_value Demo.start.world Demo.chip 9).1 = (0, -1) ∧
    roundDouble (-1 + 1 / 2) = -1 + 1 / 2 ∧
    (readFlag Demo.env Demo.chip Reg.alarm 9 20 0 Demo.start).1.2 =
      (if -1 / 2 ≤ (Demo.env.sensors_get_value Demo.start.world Demo.chip 9).1.2
       then ⌊(Demo.env.sensors_get_value Demo.start.world Demo.chip 9).1.2 + 1 / 2⌋
       else ⌈(Demo.env.sensors_get_value Demo.start.world Demo.chip 9).1.2 + 1 / 2⌉) :=
  ⟨by decide, by decide!, by decide!,
    (readFlag_truncates Demo.env Demo.chip Reg.alarm 9 20 Demo.start (by decide)
      (by decide!) (by decide!)).2.1 (by decide!)⟩

/-- **C7 (failing input).** ScanForAlarms on a chip with the single feature
`f1`, which has no alarm register: the label is retrieved and the `continue`
of line 97 leaves the iteration without the `free` of line 142, so the call
makes one successful label retrieval and no release.  The same holds when the
read of the alarm register fails (feature `f6`): the call returns 20 and the
label is not released. -/
theorem scan_skip_leaks_label :
    (doKnownChip Demo.env Demo.chip ⟨1, some [Demo.f1]⟩ DO_SCAN Demo.start).2.1
      = [Event.getLabel 1 "f1" (some "f1 label")] ∧
    (acquisitions
      (doKnownChip Demo.env Demo.chip ⟨1, some [Demo.f1]⟩ DO_SCAN Demo.start).2.1).length = 1 ∧
    (releases
      (doKnownChip Demo.env Demo.chip ⟨1, some [Demo.f1]⟩ DO_SCAN Demo.start).2.1).length = 0 ∧
    (doKnownChip Demo.env Demo.chip ⟨1, some [Demo.f6]⟩ DO_SCAN Demo.start).1 = 20 ∧
    (doKnownChip Demo.env Demo.chip ⟨1, some [Demo.f6]⟩ DO_SCAN Demo.start).2.1
      = [Event.getLabel 1 "f6" (some "f6 label"), Event.getValue Reg.alarm 1 13 (-5) 0,
         Event.log LOG_ERR "Error getting sensor data: lm78/#13: bus busy"] := by
  decide!

/-- Outside ScanForAlarms mode `doKnownChip` makes as many calls of `free` as
successful label retrievals, on every path. -/
theorem doKnownChip_releases_labels (env : Collab W) (chip : sensors_chip_name)
    (descriptor : ChipDescriptor) (action : Int) (s : State W) (hs : action ≠ DO_SCAN) :
    (releases (doKnownChip env chip descriptor action s).2.1).length
      = (acquisitions (doKnownChip env chip descriptor action s).2.1).length := by
  simp only [doKnownChip]
  rw [acquisitions_append, releases_append, List.length_append, List.length_append,
    doFeatures_balanced env chip action _ _ _ hs]
  congr 1
  split
  · obtain ⟨adapterLine, hal, hid⟩ := idChip_events env chip s
    rw [hid]
    rcases hal with rfl | ⟨a, rfl⟩ <;> simp [acquisitions, releases]
  · simp [acquisitions, releases]

/-- **C8.** `doChip` with the action ApplySetpoints does not depend on the
table (any two tables give the same result); its events are the
identification lines ("Chip: ..." and, when the adapter name is known,
"Adapter: ..."), then the one call of `sensors_do_chip_sets`, then one line:
`Set.` at INFO with return code 0 when the call returned 0, else an ERROR
line ending in the collaborator's message with return code 50.  So there is
no label retrieval or register read, exactly one call of
`sensors_do_chip_sets`, one `Set.` line and no ERROR line on success, one
ERROR line and no `Set.` line on failure. -/
theorem doChip_set_delegates (env : Collab W) (knownChips knownChips' : List ChipDescriptor)
    (chip : sensors_chip_name) (s : State W) :
    let r := doChip env knownChips chip DO_SET s
    let c := (env.sensors_do_chip_sets (idChip env chip s).2.2.world chip).1
    doChip env knownChips' chip DO_SET s = r ∧
    (∃ adapterLine, (adapterLine = [] ∨
        ∃ a, adapterLine = [Event.log LOG_INFO ("Adapter: " ++ a)]) ∧
      r.2.1 = Event.log LOG_INFO ("Chip: " ++ showStr (chipName env chip s.world).1)
        :: adapterLine ++ [Event.chipSets chip.addr c,
          if c = 0 then Event.log LOG_INFO "Set."
          else Event.log LOG_ERR
            ("Error performing chip sets: " ++ chip.pfx ++ ": " ++ env.sensors_strerror c)]) ∧
    r.1 = (if c = 0 then 0 else 50) ∧
    (r.2.1.filter Event.isChipSets).length = 1 ∧
    (r.2.1.filter Event.isRetrieval).length = 0 ∧
    r.2.1.count (Event.log LOG_INFO "Set.") = (if c = 0 then 1 else 0) ∧
    (r.2.1.filter Event.isErrorLine).length = (if c = 0 then 0 else 1) := by
  intro r c
  obtain ⟨adapterLine, hal, hid⟩ := idChip_events env chip s
  have hr : r = (if c = 0 then (0, (idChip env chip s).2.1 ++
        [Event.chipSets chip.addr c, Event.log LOG_INFO "Set."],
        { (idChip env chip s).2.2 with
          world := (env.sensors_do_chip_sets (idChip env chip s).2.2.world chip).2 })
      else (50, (idChip env chip s).2.1 ++
        [Event.chipSets chip.addr c, Event.log LOG_ERR
          ("Error performing chip sets: " ++ chip.pfx ++ ": " ++ env.sensors_strerror c)],
        { (idChip env chip s).2.2 with
          world := (env.sensors_do_chip_sets (idChip env chip s).2.2.world chip).2 })) := by
    show doChip env knownChips chip DO_SET s = _
    simp only [doChip, setChip, idChip_ret]
    by_cases hc : c = 0
    · have hc' : (env.sensors_do_chip_sets (idChip env chip s).2.2.world chip).1 = 0 := hc
      simp [hc, hc']
    · have hc' : (env.sensors_do_chip_sets (idChip env chip s).2.2.world chip).1 ≠ 0 := hc
      simp [hc, hc']
  refine ⟨by simp [doChip, r], ⟨adapterLine, hal, ?_⟩, ?_, ?_, ?_, ?_, ?_⟩
  · by_cases hc : c = 0 <;> simp [hr, hc, hid]
  · by_cases hc : c = 0 <;> simp [hr, hc]
  · by_cases hc : c = 0 <;> rcases hal with rfl | ⟨a, rfl⟩ <;>
      simp [hr, hc, hid, Event.isChipSets, List.filter_cons]
  · by_cases hc : c = 0 <;> rcases hal with rfl | ⟨a, rfl⟩ <;>
      simp [hr, hc, hid, Event.isRetrieval, List.filter_cons]
  · by_cases hc : c = 0 <;> rcases hal with rfl | ⟨a, rfl⟩ <;>
      simp [hr, hc, hid, List.count_cons, chip_line_ne_set, adapter_line_ne_set]
  · by_cases hc : c = 0 <;> rcases hal with rfl | ⟨a, rfl⟩ <;>
      simp [hr, hc, hid, Event.isErrorLine, List.filter_cons]

/-- The ApplySetpoints scenario on the demonstration system: on the chip
`chip` the collaborator succeeds, on the chip `busy` it fails with the
message "bus busy". -/
theorem doChip_set_demo :
    doChip Demo.env Demo.knownChips Demo.chip DO_SET Demo.start =
      (0, [Event.log LOG_INFO "Chip: lm78-isa-0290", Event.log LOG_INFO "Adapter: ISA adapter",
           Event.chipSets 1 0, Event.log LOG_INFO "Set."], ⟨3, "stale"⟩) ∧
    doChip Demo.env Demo.knownChips Demo.busy DO_SET Demo.start =
      (50, [Event.log LOG_INFO "Chip: busy-isa-0290", Event.log LOG_INFO "Adapter: ISA adapter",
            Event.chipSets 3 (-4),
            Event.log LOG_ERR "Error performing chip sets: busy: bus busy"], ⟨3, "stale"⟩) := by
  decide!

/-- **C9 (counterexample).** The scenario of the two features `f1` (no alarm
register, formatted "30 C") and `f2` (alarm register value 1, formatted
"31 C") in Read mode, no retrieval failing: the INFO lines are four, the
two identification lines and, for each feature, its line with two leading
spaces; they are not the two lines "f1 label: 30 C" and "f2 label: 31 C". -/
theorem read_scenario_info_lines :
    (doKnownChip Demo.env Demo.chip ⟨1, some [Demo.f1, Demo.f2]⟩ DO_READ Demo.start).1 = 0 ∧
    infoLines (doKnownChip Demo.env Demo.chip ⟨1, some [Demo.f1, Demo.f2]⟩ DO_READ
        Demo.start).2.1
      = ["Chip: lm78-isa-0290", "Adapter: ISA adapter", "  f1 label: 30 C",
         "  f2 label: 31 C"] ∧
    infoLines (doKnownChip Demo.env Demo.chip ⟨1, some [Demo.f1, Demo.f2]⟩ DO_READ
        Demo.start).2.1
      ≠ ["f1 label: 30 C", "f2 label: 31 C"] := by
  decide!

/-- **C9 (amended).** For a chip of the table whose feature array has the
entries `features`, when `doKnownChip` returns 0 (no retrieval failed).
In Read mode the events are the identification lines at INFO, "Chip: name"
and, when `sensors_get_adapter_name` gives a name, "Adapter: name", followed
by one `ReadReport` per feature in declaration order: `format` is called on
the values read from the data registers and the flags read from the alarm and
beep registers, and for each feature whose `format` yields a string there is
one INFO line with the text "  label: formatted" (two leading spaces).  In
ScanForAlarms mode the events are one `ScanReport` per feature in declaration
order: a feature whose alarm flag is 0 is not evaluated, and a feature whose
alarm flag is set and whose `format`, called on the values and flags read,
yields a string gives one ALERT line
"Sensor alarm: Chip name: label: formatted"; there is no INFO line. -/
theorem doKnownChip_reports (env : Collab W) (chip : sensors_chip_name) (name : Nat)
    (features : List FeatureDescriptor) (s : State W)
    (hfeatures : ∀ f ∈ features, f.format ≠ none) :
    ((doKnownChip env chip ⟨name, some features⟩ DO_READ s).1 = 0 →
      ∃ blocks,
        (doKnownChip env chip ⟨name, some features⟩ DO_READ s).2.1 =
          Event.log LOG_INFO ("Chip: " ++ showStr (chipName env chip s.world).1)
            :: adapterInfo
                (env.sensors_get_adapter_name (chipName env chip s.world).2 chip.bus).1
            ++ blocks.flatten ∧
        List.Forall₂ (ReadReport env chip) features blocks) ∧
    ((doKnownChip env chip ⟨name, some features⟩ DO_SCAN s).1 = 0 →
      (∃ blocks,
        (doKnownChip env chip ⟨name, some features⟩ DO_SCAN s).2.1 = blocks.flatten ∧
        List.Forall₂ (ScanReport env chip) features blocks) ∧
      infoLines (doKnownChip env chip ⟨name, some features⟩ DO_SCAN s).2.1 = []) := by
  constructor
  · intro h0
    simp only [doKnownChip, if_true, Option.getD_some, idChip_ret] at h0 ⊢
    obtain ⟨blocks, hb, hall⟩ := doFeatures_blocks env chip DO_READ features _ hfeatures h0
    refine ⟨blocks, ?_, ?_⟩
    · rw [hb, idChip_lines]
    · exact hall.imp (fun _ _ h => by
        obtain ⟨fmt, hf, hit⟩ := h
        exact hit.readReport hf)
  · intro h0
    simp only [doKnownChip, Option.getD_some] at h0 ⊢
    rw [if_neg (by decide)] at h0 ⊢
    obtain ⟨blocks, hb, hall⟩ := doFeatures_blocks env chip DO_SCAN features _ hfeatures h0
    have hscan : List.Forall₂ (ScanReport env chip) features blocks :=
      hall.imp (fun _ _ h => by
        obtain ⟨fmt, hf, hit⟩ := h
        exact hit.scanReport hf)
    refine ⟨⟨blocks, by rw [hb]; rfl, hscan⟩, ?_⟩
    rw [hb]
    exact scanReports_no_info hscan

/-- Witness of `doKnownChip_reports`: the scenario of the features `f1` and
`f2`, in ScanForAlarms mode: `f1` is not evaluated, `f2` gives the one ALERT
line. -/
theorem doKnownChip_reports_witness :
    (∀ f ∈ [Demo.f1, Demo.f2], f.format ≠ none) ∧
    (doKnownChip Demo.env Demo.chip ⟨1, some [Demo.f1, Demo.f2]⟩ DO_SCAN Demo.start).1 = 0 ∧
    (doKnownChip Demo.env Demo.chip ⟨1, some [Demo.f1, Demo.f2]⟩ DO_SCAN Demo.start).2.1
      = Event.getLabel 1 "f1" (some "f1 label") :: Demo.scanOfF2 ∧
    (∃ blocks,
      (doKnownChip Demo.env Demo.chip ⟨1, some [Demo.f1, Demo.f2]⟩ DO_SCAN Demo.start).2.1
        = blocks.flatten ∧
      List.Forall₂ (ScanReport Demo.env Demo.chip) [Demo.f1, Demo.f2] blocks) ∧
    infoLines (doKnownChip Demo.env Demo.chip ⟨1, some [Demo.f1, Demo.f2]⟩ DO_SCAN
      Demo.start).2.1 = [] :=
  ⟨by simp [Demo.f1, Demo.f2], by decide!, by decide!,
   (doKnownChip_reports Demo.env Demo.chip 1 [Demo.f1, Demo.f2] Demo.start
      (by simp [Demo.f1, Demo.f2])).2 (by decide!)⟩

/-- **C10.** For every collaborator, table, list of patterns and state:
`readChips`, `scanChips` and `rrdChips` return 0, 20, 21, 22 or 23 and
`setChips` returns 0 or 50, whatever codes the collaborator's calls return;
`idChip` returns 0 for every input, and `setChip` always goes on to the call
of `sensors_do_chip_sets` and never logs the line "Error identifying chip". -/
theorem poll_return_codes (env : Collab W) (knownChips : List ChipDescriptor)
    (chipNames : List String) (s : State W) :
    (readChips env knownChips chipNames s).1 ∈ [0, 20, 21, 22, 23] ∧
    (scanChips env knownChips chipNames s).1 ∈ [0, 20, 21, 22, 23] ∧
    (rrdChips env knownChips chipNames s).1 ∈ [0, 20, 21, 22, 23] ∧
    (setChips env knownChips chipNames s).1 ∈ [0, 50] ∧
    (∀ (chip : sensors_chip_name) (t : State W), (idChip env chip t).1 = 0) ∧
    (∀ (chip : sensors_chip_name) (t : State W),
      (∃ code, Event.chipSets chip.addr code ∈ (setChip env chip t).2.1) ∧
      Event.log LOG_ERR ("Error identifying chip: " ++ chip.pfx) ∉ (setChip env chip t).2.1) := by
  refine ⟨?_, ?_, ?_, ?_, idChip_ret env, ?_⟩
  · exact doPatterns_ret env knownChips DO_READ _
      (fun c t => doChip_ret env knownChips c DO_READ t (by decide)) _ _ _ (by decide)
  · exact doPatterns_ret env knownChips DO_SCAN _
      (fun c t => doChip_ret env knownChips c DO_SCAN t (by decide)) _ _ _ (by decide)
  · exact doPatterns_ret env knownChips DO_RRD _
      (fun c t => doChip_ret env knownChips c DO_RRD t (by decide)) _ _ _ (by decide)
  · exact doPatterns_ret env knownChips DO_SET _
      (fun c t => doChip_set_ret env knownChips c t) _ _ _ (by decide)
  · intro chip t
    obtain ⟨adapterLine, hal, hid⟩ := idChip_events env chip t
    rw [setChip_eq]
    constructor
    · split <;>
        exact ⟨(env.sensors_do_chip_sets (idChip env chip t).2.2.world chip).1, by simp⟩
    · split <;> rcases hal with rfl | ⟨a, rfl⟩ <;>
        simp [hid, error_lines_differ]

end Sensord
